import Mathlib

/-!
Shallow embedding of the polaris-locations-api core
(`dhos_locations_api/blueprint_api/controller.py`,
`dhos_locations_api/models/location.py`,
`dhos_locations_api/models/location_product.py`).

The relational store is modelled as explicit lists of rows, the SQLAlchemy
session as state passing, and the JSON-serialisable response dictionaries as
association lists over a JSON-like value type.
-/

namespace DhosLocations

/-- JSON-like values, the result type of the serialisation methods
(`to_dict`, `to_compact_dict`) on the models. -/
inductive JVal where
  | null : JVal
  | str : String → JVal
  | bool : Bool → JVal
  | nat : Nat → JVal
  | arr : List JVal → JVal
  | obj : List (String × JVal) → JVal
  deriving Repr, Inhabited

/-- A Python dict with string keys, as produced by the serialisers:
an association list, first occurrence of a key wins on lookup. -/
abbrev Dict := List (String × JVal)

/-- Key lookup in a dict. -/
def dlookup (d : Dict) (k : String) : Option JVal :=
  (d.find? (fun kv => kv.1 = k)).map (fun kv => kv.2)

/-- Key presence in a dict. -/
def hasKey (d : Dict) (k : String) : Bool :=
  d.any (fun kv => kv.1 = k)

/-- Python `dict[k] = v`: replace the value in place if the key is present
(keeping its position), otherwise append the key at the end. -/
def dictSet (d : Dict) (k : String) (v : JVal) : Dict :=
  if hasKey d k then d.map (fun kv => if kv.1 = k then (k, v) else kv)
  else d ++ [(k, v)]

/-- Truthiness of an optional string, as Python `if s:` —
`None` and the empty string are falsy. -/
def truthyS : Option String → Bool
  | none => false
  | some s => !(s = "")

/-- An optional string serialised to JSON (`None` becomes `null`). -/
def optStrJ : Option String → JVal
  | none => JVal.null
  | some s => JVal.str s

/-- An optional date serialised to JSON (dates are modelled as day numbers). -/
def optNatJ : Option Nat → JVal
  | none => JVal.null
  | some n => JVal.nat n

/-- A row of the `location_product` table (`models/location_product.py`).
Dates are modelled as day numbers; `closed_date = none` means the product
association is currently open. -/
structure LocationProduct where
  uuid : String
  product_name : String
  opened_date : Nat
  closed_date : Option Nat
  location_uuid : String
  closed_reason : Option String := none
  closed_reason_other : Option String := none
  created : Nat := 0
  deriving Repr, DecidableEq

/-- A row of the `location` table (`models/location.py`).
The audit columns of `ModelIdentifier` (created/modified timestamps and
actors, from the flask_batteries_included library) are carried as plain
strings; the address columns of `AddressMixin` are optional strings. -/
structure Location where
  uuid : String
  location_type : Option String
  ods_code : Option String
  display_name : String
  active : Bool
  parent_id : Option String
  score_system_default : Option String
  address_line_1 : Option String := none
  address_line_2 : Option String := none
  address_line_3 : Option String := none
  address_line_4 : Option String := none
  postcode : Option String := none
  country : Option String := none
  locality : Option String := none
  region : Option String := none
  created : String := ""
  created_by : String := ""
  modified : String := ""
  modified_by : String := ""
  deriving Repr, DecidableEq

/-- The relational store: the two tables of the service. -/
structure DB where
  locations : List Location
  products : List LocationProduct
  deriving Repr, DecidableEq

/-- `Location.query.get(uuid)`: primary-key lookup. -/
def findLoc (db : DB) (u : String) : Option Location :=
  db.locations.find? (fun l => l.uuid = u)

/-- `Location.query.filter(Location.ods_code == c).first()`. -/
def findLocByOds (db : DB) (c : String) : Option Location :=
  db.locations.find? (fun l => l.ods_code = some c)

/-- `LocationProduct.query.get(uuid)`: primary-key lookup. -/
def findProd (db : DB) (u : String) : Option LocationProduct :=
  db.products.find? (fun p => p.uuid = u)

/-- The `Location.dh_products` relationship: the product rows owned by a
location. -/
def locProducts (db : DB) (u : String) : List LocationProduct :=
  db.products.filter (fun p => p.location_uuid = u)

/-- `LocationProduct.to_compact_dict` (also bound as `to_dict`). -/
def LocationProduct.to_dict (p : LocationProduct) : Dict :=
  [("product_name", JVal.str p.product_name),
   ("opened_date", JVal.nat p.opened_date),
   ("closed_date", optNatJ p.closed_date),
   ("created", JVal.nat p.created),
   ("uuid", JVal.str p.uuid)]

/-- `Location.to_compact_dict`: the flat shape. The `children` key is only
present when a child-uuid list was supplied; `score_system_default` is only
present when truthy. -/
def Location.to_compact_dict (l : Location)
    (child_location_uuids : Option (List String)) : Dict :=
  [("location_type", optStrJ l.location_type),
   ("ods_code", optStrJ l.ods_code),
   ("display_name", JVal.str l.display_name),
   ("active", JVal.bool l.active),
   ("uuid", JVal.str l.uuid),
   ("parent", optStrJ l.parent_id)]
  ++ (match child_location_uuids with
      | some cs => [("children", JVal.arr (cs.map JVal.str))]
      | none => [])
  ++ (if truthyS l.score_system_default
      then [("score_system_default", optStrJ l.score_system_default)]
      else [])

/-- Modelled from the spec: `AddressMixin.pack_address`
(`models/address.py` is not part of the sources provided; the spec lists the
address fields as optional strings). -/
def Location.pack_address (l : Location) : Dict :=
  [("address_line_1", optStrJ l.address_line_1),
   ("address_line_2", optStrJ l.address_line_2),
   ("address_line_3", optStrJ l.address_line_3),
   ("address_line_4", optStrJ l.address_line_4),
   ("postcode", optStrJ l.postcode),
   ("country", optStrJ l.country),
   ("locality", optStrJ l.locality),
   ("region", optStrJ l.region)]

/-- `ModelIdentifier.pack_identifier` from the flask_batteries_included
library: audit fields. The library version also repeats the `uuid` key with
the identical value as the model `uuid` column, so merging it into a dict
that already holds `uuid` leaves that entry unchanged; the repeated key is
therefore dropped here and the merge in `Location.to_dict` is written out as
plain concatenation. -/
def Location.pack_identifier (l : Location) : Dict :=
  [("created", JVal.str l.created),
   ("created_by", JVal.str l.created_by),
   ("modified", JVal.str l.modified),
   ("modified_by", JVal.str l.modified_by)]

/-- The nested parent chain built by the `while parent is not None` loop of
`Location.to_dict(include_parents=True)`, following the `parent`
relationship. Recursion is bounded by fuel (one unit per ancestor); in a
well-formed store the chain reaches a root before the fuel — the number of
rows — runs out. -/
def toDictChain (db : DB) : Nat → Option String → JVal
  | _, none => JVal.null
  | 0, some _ => JVal.null
  | fuel + 1, some u =>
    match findLoc db u with
    | none => JVal.null
    | some p =>
      JVal.obj
        ([("uuid", JVal.str p.uuid),
          ("parent", toDictChain db fuel p.parent_id),
          ("ods_code", optStrJ p.ods_code),
          ("display_name", JVal.str p.display_name),
          ("location_type", optStrJ p.location_type)]
         ++ (if truthyS p.score_system_default
             then [("score_system_default", optStrJ p.score_system_default)]
             else []))

/-- `Location.to_dict`. For the full shape the Python code merges
`{"dh_products": …, **compact_dict, **pack_address(), **pack_identifier()}`;
the key sets are disjoint (see `Location.pack_identifier` for the repeated
`uuid` key), so the merge is concatenation. With `include_parents` the
`parent` entry is overwritten by the resolved chain. -/
def Location.to_dict (db : DB) (l : Location) (compact : Bool)
    (child_location_uuids : Option (List String))
    (include_parents : Bool) : Dict :=
  let compact_dict := l.to_compact_dict child_location_uuids
  if compact then compact_dict
  else
    let base :=
      ("dh_products",
        JVal.arr ((locProducts db l.uuid).map (fun p => JVal.obj p.to_dict)))
      :: compact_dict ++ l.pack_address ++ l.pack_identifier
    if include_parents then
      dictSet base "parent" (toDictChain db db.locations.length l.parent_id)
    else base

/-- The `product_name` argument of `location_search` after its first two
steps: a one-element list collapses to its single string, and a falsy value
(`None`, the empty list, or — after collapsing — the empty string) disables
the filter. The result is the list of names the product join matches
against, or `none` when no join is made. -/
def productNames : Option (List String) → Option (List String)
  | none => none
  | some [] => none
  | some [s] => if s = "" then none else some [s]
  | some ns => some ns

/-- The product rows joined to a location by
`query.join(LocationProduct, and_(location_uuid == uuid, product_name in names))`.
The row's `closed_date` is never consulted. -/
def matchingProducts (db : DB) (ns : List String) (u : String) :
    List LocationProduct :=
  db.products.filter
    (fun p => p.location_uuid = u && ns.contains p.product_name)

/-- The copies of a location row produced by the (inner) product join: one
copy per matching product row; without a product filter the row itself. -/
def joinRows (db : DB) (pf : Option (List String)) (l : Location) :
    List Location :=
  match pf with
  | none => [l]
  | some ns => (matchingProducts db ns l.uuid).map (fun _ => l)

/-- Whether a location passes the product join at all. -/
def prodOk (db : DB) (pf : Option (List String)) (u : String) : Bool :=
  match pf with
  | none => true
  | some ns => !((matchingProducts db ns u).isEmpty)

/-- The child rows of the recursive CTE of `query_child_uuids`: the
locations whose `parent_id` is the given uuid, joined (with multiplicity)
against the product filter. -/
def childRows (db : DB) (pf : Option (List String)) (u : String) :
    List Location :=
  (db.locations.filter (fun c => c.parent_id = some u)).flatMap
    (fun c => joinRows db pf c)

/-- The aggregated `children` array of `query_child_uuids` for one root: the
recursive CTE descends through `parent_id` children, re-joining the product
filter at every step (`union_all`, so multiplicities are kept). Recursion is
bounded by fuel; in a cycle-free store a fuel of one unit per row is enough
to reach every descendant. -/
def descend (db : DB) (pf : Option (List String)) :
    Nat → String → List String
  | 0, _ => []
  | fuel + 1, u =>
    (childRows db pf u).flatMap (fun c => c.uuid :: descend db pf fuel c.uuid)

/-- The filters of `location_search` other than the product join: uuid list,
tri-state `active`, exact (truthy) `ods_code`, and `location_type`
membership. A row whose `location_type` is NULL never matches an `in_`
filter. -/
def matchesFilters (l : Location) (location_uuids : Option (List String))
    (active : Option Bool) (ods_code : Option String)
    (location_types : Option (List String)) : Bool :=
  (match location_uuids with
   | none => true
   | some us => us.contains l.uuid) &&
  (match active with
   | none => true
   | some a => l.active = a) &&
  (if truthyS ods_code then decide (l.ods_code = ods_code) else true) &&
  (match location_types with
   | none => true
   | some ts =>
     match l.location_type with
     | none => false
     | some t => ts.contains t)

/-- One node of the chain built by `fixup_parents`: the columns selected by
its recursive CTE over the `location` table, with the given `parent` value;
the `score_system_default` key is deleted when the column is NULL
(an `is None` test, not truthiness). -/
def fixupNode (p : Location) (pv : JVal) : Dict :=
  [("uuid", JVal.str p.uuid),
   ("parent", pv),
   ("location_type", optStrJ p.location_type),
   ("ods_code", optStrJ p.ods_code),
   ("display_name", JVal.str p.display_name)]
  ++ (match p.score_system_default with
      | some s => [("score_system_default", JVal.str s)]
      | none => [])

/-- The nested ancestor chain substituted by `fixup_parents`: a node's
`parent` entry is replaced by the parent's own node whenever the parent uuid
is truthy. A parent uuid that matches no row would raise a `KeyError` in the
Python code; that branch returns `null` here and is unreachable in a
well-formed store. -/
def fixupChain (db : DB) : Nat → Option String → JVal
  | _, none => JVal.null
  | 0, some _ => JVal.null
  | fuel + 1, some u =>
    match findLoc db u with
    | none => JVal.null
    | some p =>
      JVal.obj
        (fixupNode p
          (if truthyS p.parent_id then fixupChain db fuel p.parent_id
           else optStrJ p.parent_id))

/-- The per-record step of `fixup_parents`: when the record's `parent` entry
holds a truthy uuid, replace it with the resolved nested parent chain. -/
def fixupRec (db : DB) (r : Dict) : Dict :=
  match dlookup r "parent" with
  | some (JVal.str u) =>
    if u = "" then r
    else dictSet r "parent" (fixupChain db db.locations.length (some u))
  | _ => r

/-- `fixup_parents`: in every result record whose `parent` entry holds a
truthy uuid, replace it with the resolved nested parent chain. -/
def fixup_parents (db : DB) (records : List Dict) : List Dict :=
  records.map (fixupRec db)

/-- `location_search`: filter the `location` table, join the product filter
(with multiplicity), attach the aggregated child arrays when `children` is
set (`coalesce(children, [])`, so a row without descendants gets `[]`),
serialise each row (`compact` picks the shape), and fix up the parent
chains. Row order is modelled as table order; the service gives no ordering
guarantee. -/
def location_search (db : DB) (location_uuids : Option (List String))
    (product_name : Option (List String)) (active : Option Bool)
    (ods_code : Option String) (location_types : Option (List String))
    (compact : Bool) (children : Bool) : List Dict :=
  let pf := productNames product_name
  let filtered :=
    db.locations.filter
      (fun l => matchesFilters l location_uuids active ods_code location_types)
  let rows :=
    filtered.flatMap
      (fun l =>
        (joinRows db pf l).map
          (fun l' =>
            (l',
             if children then some (descend db pf db.locations.length l'.uuid)
             else none)))
  let records := rows.map (fun lc => Location.to_dict db lc.1 compact lc.2 false)
  fixup_parents db records

/-- `get_locations_by_uuids` delegates to `location_search`. -/
def get_locations_by_uuids (db : DB) (location_uuids : Option (List String))
    (product_name : Option (List String)) (active : Option Bool)
    (compact : Bool) (children : Bool) : List Dict :=
  location_search db location_uuids product_name active none none compact children

/-- Errors raised by the core, tagged by the Python exception class that
carries them (`ValueError` and `TypeError` surface as 400-equivalents,
`EntityNotFoundException` as 404, `DuplicateResourceException` as 409, and
`AttributeError` as an unexpected 500-style failure). -/
inductive Err where
  | valueError (msg : String)
  | typeError (msg : String)
  | entityNotFound (msg : String)
  | duplicateResource (msg : String)
  | attributeError (msg : String)
  deriving Repr, DecidableEq

/-- Whether an error is the NotFound domain error
(`EntityNotFoundException`). -/
def Err.isEntityNotFound : Err → Bool
  | Err.entityNotFound _ => true
  | _ => false

/-- `get_location_by_uuid`: a search restricted to the one uuid; an empty
result raises `EntityNotFoundException`. -/
def get_location_by_uuid (db : DB) (location_uuid : String)
    (children : Bool) (compact : Bool) : Except Err Dict :=
  match location_search db (some [location_uuid]) none none none none
      compact children with
  | r :: _ => Except.ok r
  | [] =>
    Except.error
      (Err.entityNotFound ("Location " ++ location_uuid ++ " not found"))

/-- `generate_uuid` from the library, modelled as a fresh-name supply driven
by a counter threaded through the mutation paths. -/
def genUuid (ctr : Nat) : String := "generated-uuid-" ++ toString ctr

/-- The payload of one product entry in a create or update request
(`LocationProduct.new(**prod)` / `LocationProduct.update(**product)`).
`none` stands for an absent key; the date columns' `isinstance` checks
reject an explicit JSON null for a typed field, so presence implies a
proper value. -/
structure ProductDetails where
  uuid : Option String := none
  product_name : String
  opened_date : Option Nat := none
  closed_date : Option Nat := none
  closed_reason : Option String := none
  closed_reason_other : Option String := none
  deriving Repr, DecidableEq

/-- `LocationProduct.new`: generate a uuid when the given one is falsy; the
`opened_date` column default (`func.now()`) is modelled as day 0. Returns
the new row and the advanced uuid counter. -/
def newProductRow (locUuid : String) (ctr : Nat) (pd : ProductDetails) :
    LocationProduct × Nat :=
  let uc : String × Nat :=
    if truthyS pd.uuid then (pd.uuid.getD "", ctr) else (genUuid ctr, ctr + 1)
  ({ uuid := uc.1,
     product_name := pd.product_name,
     opened_date := pd.opened_date.getD 0,
     closed_date := pd.closed_date,
     location_uuid := locUuid,
     closed_reason := pd.closed_reason,
     closed_reason_other := pd.closed_reason_other }, uc.2)

/-- The payload of a create-location request (`Location.new(**details)`). -/
structure CreateDetails where
  uuid : Option String := none
  dh_products : List ProductDetails := []
  parent : Option String := none
  parent_ods_code : Option String := none
  location_type : Option String := none
  ods_code : Option String := none
  display_name : String := ""
  active : Option Bool := none
  score_system_default : Option String := none
  address_line_1 : Option String := none
  address_line_2 : Option String := none
  address_line_3 : Option String := none
  address_line_4 : Option String := none
  postcode : Option String := none
  country : Option String := none
  locality : Option String := none
  region : Option String := none
  deriving Repr, DecidableEq

/-- The parent-resolution step of `Location.new`: a truthy `parent_ods_code`
must match an existing row, and must agree with a truthy `parent` argument
when both are given; the resolved uuid then becomes the parent. -/
def resolveParent (db : DB) (d : CreateDetails) : Except Err (Option String) :=
  match d.parent_ods_code with
  | none => Except.ok d.parent
  | some c =>
    if c = "" then Except.ok d.parent
    else
      match findLocByOds db c with
      | none =>
        Except.error
          (Err.valueError
            ("Parent location with ods_code " ++ c ++ " not found"))
      | some pobj =>
        match d.parent with
        | some p =>
          if !(p = "") && !(pobj.uuid = p) then
            Except.error (Err.valueError "Location may only have one parent")
          else Except.ok (some pobj.uuid)
        | none => Except.ok (some pobj.uuid)

/-- The loop adding the initial `LocationProduct` rows of `Location.new` to
the session, one per product entry. -/
def addProductRows (lu : String) : DB → Nat → List ProductDetails → DB × Nat
  | db, ctr, [] => (db, ctr)
  | db, ctr, pd :: rest =>
    let r := newProductRow lu ctr pd
    addProductRows lu { db with products := db.products ++ [r.1] } r.2 rest

/-- `Location.new`: generate a uuid when the given one is falsy, resolve the
parent, add the location row to the session, and add a product row per
initial product entry. Returns the session state, the new location and the
advanced uuid counter. -/
def locationNew (db : DB) (ctr : Nat) (d : CreateDetails) :
    Except Err (DB × Location × Nat) :=
  let uc : String × Nat :=
    if truthyS d.uuid then (d.uuid.getD "", ctr) else (genUuid ctr, ctr + 1)
  match resolveParent db d with
  | Except.error e => Except.error e
  | Except.ok parent =>
    let loc : Location :=
      { uuid := uc.1,
        location_type := d.location_type,
        ods_code := d.ods_code,
        display_name := d.display_name,
        active := d.active.getD true,
        parent_id := parent,
        score_system_default := d.score_system_default,
        address_line_1 := d.address_line_1,
        address_line_2 := d.address_line_2,
        address_line_3 := d.address_line_3,
        address_line_4 := d.address_line_4,
        postcode := d.postcode,
        country := d.country,
        locality := d.locality,
        region := d.region }
    let db1 : DB := { db with locations := db.locations ++ [loc] }
    let fold := addProductRows loc.uuid db1 uc.2 d.dh_products
    Except.ok (fold.1, loc, fold.2)

/-- The unique index `ix_location_ods_code`: a commit fails with an
`IntegrityError` exactly when two rows carry the same non-null `ods_code`
(SQL unique indexes admit any number of NULLs). -/
def hasOdsConflict (ls : List Location) : Bool :=
  !(decide (ls.filterMap (fun l => l.ods_code)).Nodup)

/-- The interpolation of an optional ods code into an error message. -/
def odsStr : Option String → String
  | some c => c
  | none => "None"

/-- `create_location`: `Location.new` followed by `_safe_commit`, which maps
the unique-constraint violation to `DuplicateResourceException`; a failed
call leaves the store unchanged (the uncommitted session is discarded). The
response is the full dict with the resolved parent chain. -/
def create_location (db : DB) (ctr : Nat) (d : CreateDetails) :
    Except Err Dict × DB :=
  match locationNew db ctr d with
  | Except.error e => (Except.error e, db)
  | Except.ok (db1, loc, _) =>
    if hasOdsConflict db1.locations then
      (Except.error
        (Err.duplicateResource
          ("location with ods code " ++ odsStr loc.ods_code
            ++ " already exists")), db)
    else (Except.ok (Location.to_dict db1 loc false none true), db1)

/-- The loop of `create_many_locations`: `Location.new` per batch item in one
session; the first failure aborts the call. -/
def locationNewMany : DB → Nat → List CreateDetails → Except Err (DB × Nat)
  | db, ctr, [] => Except.ok (db, ctr)
  | db, ctr, d :: rest =>
    match locationNew db ctr d with
    | Except.error e => Except.error e
    | Except.ok (db1, _, c1) => locationNewMany db1 c1 rest

/-- `create_many_locations`: one commit for the whole batch; an ods_code
unique-constraint violation anywhere surfaces as a single
`DuplicateResourceException` and persists nothing (the transaction is
rolled back). -/
def create_many_locations (db : DB) (ctr : Nat) (ds : List CreateDetails) :
    Except Err Nat × DB :=
  match locationNewMany db ctr ds with
  | Except.error e => (Except.error e, db)
  | Except.ok (db1, _) =>
    if hasOdsConflict db1.locations then
      (Except.error (Err.duplicateResource "duplicate ods_code creating locations"),
       db)
    else (Except.ok ds.length, db1)

/-- The payload of an update-location request. The outer `Option` models
key presence (the `_MARKER` sentinel of `Location.update`): for
`parent_location`, `some none` is an explicit null (detach), `none` an
omitted field. -/
structure UpdateDetails where
  parent_location : Option (Option String) := none
  dh_products : Option (List ProductDetails) := none
  ods_code : Option String := none
  display_name : Option String := none
  location_type : Option String := none
  active : Option Bool := none
  score_system_default : Option String := none
  address_line_1 : Option String := none
  address_line_2 : Option String := none
  address_line_3 : Option String := none
  address_line_4 : Option String := none
  postcode : Option String := none
  country : Option String := none
  locality : Option String := none
  region : Option String := none
  deriving Repr, DecidableEq

/-- `LocationProduct.update`: renaming to a `product_name` on which another
product row of the same location is still open raises `ValueError`;
otherwise the updatable fields present in the payload are written. -/
def productUpdate (db : DB) (row : LocationProduct) (pd : ProductDetails) :
    Except Err DB :=
  if !(pd.product_name = row.product_name) &&
     db.products.any
       (fun q =>
         !(q.uuid = row.uuid) && q.location_uuid = row.location_uuid &&
         q.product_name = pd.product_name && q.closed_date.isNone) then
    Except.error
      (Err.valueError ("Location is already active on " ++ pd.product_name))
  else
    let row' : LocationProduct :=
      { row with
        product_name := pd.product_name,
        opened_date := pd.opened_date.getD row.opened_date,
        closed_date :=
          match pd.closed_date with
          | some v => some v
          | none => row.closed_date,
        closed_reason :=
          match pd.closed_reason with
          | some v => some v
          | none => row.closed_reason,
        closed_reason_other :=
          match pd.closed_reason_other with
          | some v => some v
          | none => row.closed_reason_other }
    Except.ok
      { db with
        products := db.products.map (fun q => if q.uuid = row.uuid then row' else q) }

/-- The `dh_products` loop of `Location.update`: an entry with a `uuid` is a
product update (an unknown uuid dereferences `None` — `AttributeError`, and
the row is not required to belong to this location); an entry without one is
a new association, rejected when it would be a second open row for the same
`product_name` on this location. Entries are processed against the session
state left by the previous ones. -/
def applyProductUpserts (l : Location) :
    DB → Nat → List ProductDetails → Except Err (DB × Nat)
  | db, ctr, [] => Except.ok (db, ctr)
  | db, ctr, pd :: rest =>
    match pd.uuid with
    | some pu =>
      match findProd db pu with
      | none =>
        Except.error (Err.attributeError "NoneType object has no attribute update")
      | some row =>
        match productUpdate db row pd with
        | Except.error e => Except.error e
        | Except.ok db1 => applyProductUpserts l db1 ctr rest
    | none =>
      if pd.closed_date.isNone &&
         (locProducts db l.uuid).any
           (fun p => p.product_name = pd.product_name && p.closed_date.isNone) then
        Except.error (Err.valueError "Cannot add duplicate open product")
      else
        let r := newProductRow l.uuid ctr pd
        applyProductUpserts l { db with products := db.products ++ [r.1] } r.2 rest

/-- The final `setattr` loop of `Location.update` over the simple updatable
fields: a field present in the payload overwrites the column. -/
def applySimple (l : Location) (d : UpdateDetails) : Location :=
  { l with
    ods_code := match d.ods_code with | some v => some v | none => l.ods_code,
    display_name := d.display_name.getD l.display_name,
    location_type :=
      match d.location_type with | some v => some v | none => l.location_type,
    active := d.active.getD l.active,
    score_system_default :=
      match d.score_system_default with
      | some v => some v
      | none => l.score_system_default,
    address_line_1 :=
      match d.address_line_1 with | some v => some v | none => l.address_line_1,
    address_line_2 :=
      match d.address_line_2 with | some v => some v | none => l.address_line_2,
    address_line_3 :=
      match d.address_line_3 with | some v => some v | none => l.address_line_3,
    address_line_4 :=
      match d.address_line_4 with | some v => some v | none => l.address_line_4,
    postcode := match d.postcode with | some v => some v | none => l.postcode,
    country := match d.country with | some v => some v | none => l.country,
    locality := match d.locality with | some v => some v | none => l.locality,
    region := match d.region with | some v => some v | none => l.region }

/-- `Location.update`: the self-parent check runs before anything is
written; then the product upserts, then the simple fields. Returns the
session state, the updated location and the advanced uuid counter. -/
def locationUpdate (db : DB) (ctr : Nat) (l : Location) (d : UpdateDetails) :
    Except Err (DB × Location × Nat) :=
  match
    (match d.parent_location with
     | none => Except.ok l
     | some p =>
       if p = some l.uuid then
         Except.error (Err.valueError "Location cannot have itself as a parent")
       else Except.ok { l with parent_id := p } : Except Err Location)
  with
  | Except.error e => Except.error e
  | Except.ok l1 =>
    match applyProductUpserts l1 db ctr (d.dh_products.getD []) with
    | Except.error e => Except.error e
    | Except.ok (db1, c1) =>
      let l2 := applySimple l1 d
      Except.ok
        ({ db1 with
           locations :=
             db1.locations.map (fun x => if x.uuid = l.uuid then l2 else x) },
         l2, c1)

/-- `update_location`: an unguarded `Location.query.get` — a missing uuid
dereferences `None` and fails with an `AttributeError` before any validation
or write; otherwise `Location.update` then `_safe_commit`. A failed call
leaves the store unchanged. -/
def update_location (db : DB) (ctr : Nat) (u : String) (d : UpdateDetails) :
    Except Err Dict × DB :=
  match findLoc db u with
  | none =>
    (Except.error (Err.attributeError "NoneType object has no attribute update"),
     db)
  | some l =>
    match locationUpdate db ctr l d with
    | Except.error e => (Except.error e, db)
    | Except.ok (db1, l2, _) =>
      if hasOdsConflict db1.locations then
        (Except.error
          (Err.duplicateResource
            ("location with ods code " ++ odsStr l2.ods_code
              ++ " already exists")), db)
      else (Except.ok (Location.to_dict db1 l2 false none true), db1)

/-! ## Well-formedness of the store and spec-side predicates -/

/-- Whether the parent chain starting at the given reference resolves fully
(every link matches a row) and reaches a root within the fuel. -/
def chainOk (db : DB) : Nat → Option String → Bool
  | _, none => true
  | 0, some _ => false
  | fuel + 1, some u =>
    match findLoc db u with
    | none => false
    | some l => chainOk db fuel l.parent_id

/-- The ancestor list of a parent reference, nearest parent first. -/
def ancList (db : DB) : Nat → Option String → List Location
  | _, none => []
  | 0, some _ => []
  | fuel + 1, some u =>
    match findLoc db u with
    | none => []
    | some l => l :: ancList db fuel l.parent_id

/-- A well-formed store: primary keys are distinct and non-empty, and every
parent chain resolves and is cycle-free (it reaches a root within one fuel
unit per row). These are the invariants the database schema enforces
(primary key, foreign key) together with tree-shapedness, which the spec
assumes (cycles are disallowed). -/
def WF (db : DB) : Prop :=
  (db.locations.map (fun l => l.uuid)).Nodup ∧
  (∀ l ∈ db.locations, ¬ l.uuid = "") ∧
  (∀ l ∈ db.locations, chainOk db db.locations.length l.parent_id = true)

instance (db : DB) : Decidable (WF db) := by
  unfold WF; infer_instance

/-- Whether an optional JSON value is the given string. -/
def jstrIs (v : Option JVal) (s : String) : Bool :=
  match v with
  | some (JVal.str t) => t = s
  | _ => false

/-- Whether an optional JSON value renders the given optional string
(`null` for `none`). -/
def joptStrIs (v : Option JVal) (s : Option String) : Bool :=
  match v, s with
  | some JVal.null, none => true
  | some (JVal.str t), some s' => t = s'
  | _, _ => false

/-- The claim's chain shape, checked against an expected ancestor list: a
chain of exactly one nested object per ancestor, nearest parent first, each
carrying that ancestor's `uuid`, `location_type`, `ods_code` and
`display_name`, and the innermost object carrying `parent = null`. -/
def isChainB : JVal → List Location → Bool
  | JVal.null, [] => true
  | JVal.obj o, a :: rest =>
    jstrIs (dlookup o "uuid") a.uuid &&
    joptStrIs (dlookup o "location_type") a.location_type &&
    joptStrIs (dlookup o "ods_code") a.ods_code &&
    jstrIs (dlookup o "display_name") a.display_name &&
    (match dlookup o "parent" with
     | some p => isChainB p rest
     | none => false)
  | _, _ => false

/-- Spec-side transitive descendant relation, with a node predicate checked
at every step of the descent (the product filter of the recursive CTE):
`IsDescM db φ u x` holds when the location `x` is reachable from `u` by
following `parent_id` edges downward through rows satisfying `φ`. -/
inductive IsDescM (db : DB) (φ : Location → Bool) : String → String → Prop where
  | child (u : String) (l : Location) (hl : l ∈ db.locations)
      (hp : l.parent_id = some u) (hphi : φ l = true) : IsDescM db φ u l.uuid
  | step (u : String) (l : Location) (x : String) (hl : l ∈ db.locations)
      (hp : l.parent_id = some u) (hphi : φ l = true)
      (h : IsDescM db φ l.uuid x) : IsDescM db φ u x

/-- Spec-side plain transitive descendant relation. -/
def IsDescendant (db : DB) (u x : String) : Prop :=
  IsDescM db (fun _ => true) u x

/-- A fueled path relation: `x` is reachable from `u` within the fuel,
through rows satisfying `φ`. -/
def stepsTo (db : DB) (φ : Location → Bool) : Nat → String → String → Prop
  | 0, _, _ => False
  | fuel + 1, u, x =>
    ∃ l, l ∈ db.locations ∧ l.parent_id = some u ∧ φ l = true ∧
      (l.uuid = x ∨ stepsTo db φ fuel l.uuid x)

/-! ## A concrete example store (hospital → ward → bay) used to instantiate
the theorems on explicit inputs -/

def exHospital : Location :=
  { uuid := "H", location_type := some "22232009", ods_code := some "ODS-H",
    display_name := "Hospital One", active := true, parent_id := none,
    score_system_default := some "news2" }

def exWard : Location :=
  { uuid := "W", location_type := some "225746001", ods_code := some "ODS-W",
    display_name := "Ward One", active := true, parent_id := some "H",
    score_system_default := none }

def exBay : Location :=
  { uuid := "B", location_type := some "225730009", ods_code := some "ODS-B",
    display_name := "Bay One", active := true, parent_id := some "W",
    score_system_default := none }

/-- An open SEND association on the hospital. -/
def exSendH : LocationProduct :=
  { uuid := "PH", product_name := "SEND", opened_date := 1,
    closed_date := none, location_uuid := "H" }

/-- A closed SEND association on the bay. -/
def exSendB : LocationProduct :=
  { uuid := "PB", product_name := "SEND", opened_date := 1,
    closed_date := some 9, location_uuid := "B" }

def exDb : DB :=
  { locations := [exHospital, exWard, exBay],
    products := [exSendH, exSendB] }

/-- The record returned for the bay by a full (non-compact) search. -/
def c1rec : Dict :=
  (location_search exDb (some ["B"]) none none none none false false).headI

/-- The record returned for the bay by a compact search. -/
def c2rec : Dict :=
  (location_search exDb (some ["B"]) none none none none true false).headI

/-- The record returned for the hospital by a compact children search. -/
def c4rec : Dict :=
  (location_search exDb (some ["H"]) none none none none true true).headI

/-- The record returned for the hospital by a compact children search
filtered by the SEND product. -/
def c5rec : Dict :=
  (location_search exDb (some ["H"]) (some ["SEND"]) none none none true
    true).headI

/-- Reassign every product row's `closed_date` (spec side): used to state
that search results never depend on whether product associations are open or
closed. -/
def setClosed (g : LocationProduct → Option Nat) (db : DB) : DB :=
  { db with
    products := db.products.map (fun p => { p with closed_date := g p }) }

/-- A create request whose `ods_code` collides with the ward's. -/
def exDup : CreateDetails :=
  { uuid := some "N1", ods_code := some "ODS-W",
    display_name := "Duplicate Ward", location_type := some "225746001" }

/-- The location row `Location.new` builds for `exDup`. -/
def exDupLoc : Location :=
  { uuid := "N1", location_type := some "225746001", ods_code := some "ODS-W",
    display_name := "Duplicate Ward", active := true, parent_id := none,
    score_system_default := none }

/-- The session state after `Location.new` on `exDup`. -/
def exDupDb1 : DB :=
  { locations := exDb.locations ++ [exDupLoc], products := exDb.products }

/-- A create request referencing an absent `parent_ods_code`. -/
def exMissingOds : CreateDetails :=
  { uuid := some "N2", ods_code := some "ODS-N2", display_name := "Orphan",
    parent_ods_code := some "NOPE" }

/-- A create request whose `parent` and `parent_ods_code` disagree. -/
def exMismatch : CreateDetails :=
  { uuid := some "N3", ods_code := some "ODS-N3", display_name := "Torn",
    parent := some "W", parent_ods_code := some "ODS-H" }

/-- A create request whose `parent_ods_code` resolves to the hospital. -/
def exAgree : CreateDetails :=
  { uuid := some "N4", ods_code := some "ODS-N4", display_name := "New Ward",
    parent_ods_code := some "ODS-H" }

/-- A new open SEND entry (no uuid) for the hospital, which already has one. -/
def exOpenSend : ProductDetails :=
  { product_name := "SEND", closed_date := none }

/-- A new open GDM entry (no uuid): no open GDM entry exists anywhere. -/
def exOpenGdm : ProductDetails :=
  { product_name := "GDM", closed_date := none }

/-- An open GDM row on the hospital, used to exercise the rename rule. -/
def exGdmH : LocationProduct :=
  { uuid := "PG", product_name := "GDM", opened_date := 2,
    closed_date := none, location_uuid := "H" }

/-- The example store extended with an open GDM row on the hospital. -/
def exDb2 : DB :=
  { locations := exDb.locations, products := exDb.products ++ [exGdmH] }

/-- A rename of the hospital's GDM row to SEND, colliding with the open
SEND row on the hospital. -/
def exRename : ProductDetails :=
  { uuid := some "PG", product_name := "SEND" }

/-! ## Dictionary lemmas -/

theorem dlookup_nil (k : String) : dlookup [] k = none := rfl

theorem dlookup_cons_self (k : String) (v : JVal) (d : Dict) :
    dlookup ((k, v) :: d) k = some v := by
  simp [dlookup, List.find?]

theorem dlookup_cons_ne (k k' : String) (v : JVal) (d : Dict)
    (h : ¬ k' = k) : dlookup ((k, v) :: d) k' = dlookup d k' := by
  have hd : (decide (k = k')) = false := decide_eq_false (fun hk => h hk.symm)
  simp [dlookup, List.find?, hd]

theorem dlookup_append (d e : Dict) (k : String) :
    dlookup (d ++ e) k = ((dlookup d k).or (dlookup e k)) := by
  induction d with
  | nil => simp [dlookup]
  | cons kv d ih =>
    by_cases h : kv.1 = k
    · cases kv with
      | mk k1 v1 =>
        simp only at h
        subst h
        simp [dlookup_cons_self]
    · cases kv with
      | mk k1 v1 =>
        simp only at h
        rw [List.cons_append, dlookup_cons_ne k1 k v1 _ (fun hk => h hk.symm),
          dlookup_cons_ne k1 k v1 _ (fun hk => h hk.symm), ih]

theorem hasKey_cons (k k' : String) (v : JVal) (d : Dict) :
    hasKey ((k, v) :: d) k' = (k = k' || hasKey d k') := by
  simp [hasKey, List.any_cons]

theorem dlookup_isSome_iff_hasKey (d : Dict) (k : String) :
    (dlookup d k).isSome = hasKey d k := by
  induction d with
  | nil => rfl
  | cons kv d ih =>
    cases kv with
    | mk k1 v1 =>
      by_cases h : k1 = k
      · subst h
        simp [dlookup_cons_self, hasKey_cons]
      · rw [dlookup_cons_ne k1 k v1 d (fun hk => h hk.symm), hasKey_cons, ih]
        simp [h]

theorem dlookup_replace_self (d : Dict) (k : String) (v : JVal)
    (h : hasKey d k = true) :
    dlookup (d.map (fun kv => if kv.1 = k then (k, v) else kv)) k = some v := by
  induction d with
  | nil => simp [hasKey] at h
  | cons kv d ih =>
    cases kv with
    | mk k1 v1 =>
      by_cases h1 : k1 = k
      · subst h1
        simp [dlookup_cons_self]
      · rw [hasKey_cons] at h
        simp only [h1, Bool.false_or] at h
        simp only [List.map_cons]
        rw [if_neg (by simpa using h1)]
        rw [dlookup_cons_ne k1 k v1 _ (fun hk => h1 hk.symm)]
        exact ih h

theorem dlookup_replace_ne (d : Dict) (k k' : String) (v : JVal)
    (h : ¬ k' = k) :
    dlookup (d.map (fun kv => if kv.1 = k then (k, v) else kv)) k' =
      dlookup d k' := by
  induction d with
  | nil => rfl
  | cons kv d ih =>
    cases kv with
    | mk k1 v1 =>
      by_cases h1 : k1 = k
      · subst h1
        simp only [List.map_cons, if_true]
        rw [dlookup_cons_ne k1 k' v _ h, dlookup_cons_ne k1 k' v1 _ h]
        exact ih
      · simp only [List.map_cons]
        rw [if_neg (by simpa using h1)]
        by_cases h2 : k1 = k'
        · subst h2
          simp [dlookup_cons_self]
        · rw [dlookup_cons_ne k1 k' v1 _ (fun hk => h2 hk.symm),
            dlookup_cons_ne k1 k' v1 _ (fun hk => h2 hk.symm)]
          exact ih

theorem dlookup_not_hasKey (d : Dict) (k : String)
    (h : ¬ hasKey d k = true) : dlookup d k = none := by
  have hs := dlookup_isSome_iff_hasKey d k
  cases hd : dlookup d k with
  | none => rfl
  | some w =>
    rw [hd] at hs
    simp at hs
    exact absurd hs h

theorem dlookup_dictSet_self (d : Dict) (k : String) (v : JVal) :
    dlookup (dictSet d k v) k = some v := by
  by_cases h : hasKey d k = true
  · rw [dictSet, if_pos h]
    exact dlookup_replace_self d k v h
  · rw [dictSet, if_neg h]
    rw [dlookup_append, dlookup_not_hasKey d k h]
    simp [dlookup_cons_self]

theorem dlookup_dictSet_ne (d : Dict) (k k' : String) (v : JVal)
    (h : ¬ k' = k) : dlookup (dictSet d k v) k' = dlookup d k' := by
  by_cases hk : hasKey d k = true
  · rw [dictSet, if_pos hk]
    exact dlookup_replace_ne d k k' v h
  · rw [dictSet, if_neg hk]
    rw [dlookup_append]
    rw [dlookup_cons_ne k k' v [] h, dlookup_nil]
    cases hd : dlookup d k' <;> simp

theorem hasKey_dictSet_ne (d : Dict) (k k' : String) (v : JVal)
    (h : ¬ k' = k) : hasKey (dictSet d k v) k' = hasKey d k' := by
  rw [← dlookup_isSome_iff_hasKey, ← dlookup_isSome_iff_hasKey,
    dlookup_dictSet_ne d k k' v h]

/-! ## Store lookup and ancestor chain lemmas -/

theorem findLoc_some (db : DB) (u : String) (l : Location)
    (h : findLoc db u = some l) : l ∈ db.locations ∧ l.uuid = u := by
  refine ⟨List.mem_of_find?_eq_some h, ?_⟩
  have := List.find?_some h
  simpa using this

theorem findLoc_none (db : DB) (u : String) (h : findLoc db u = none) :
    ∀ l ∈ db.locations, ¬ l.uuid = u := by
  intro l hl
  have := List.find?_eq_none.mp h l hl
  simpa using this

theorem uuid_inj (db : DB) (hnd : (db.locations.map (fun l => l.uuid)).Nodup)
    (a b : Location) (ha : a ∈ db.locations) (hb : b ∈ db.locations)
    (h : a.uuid = b.uuid) : a = b :=
  List.inj_on_of_nodup_map hnd ha hb h

theorem findLoc_of_mem (db : DB)
    (hnd : (db.locations.map (fun l => l.uuid)).Nodup)
    (l : Location) (hl : l ∈ db.locations) : findLoc db l.uuid = some l := by
  cases hf : findLoc db l.uuid with
  | none => exact absurd rfl (findLoc_none db l.uuid hf l hl)
  | some a =>
    obtain ⟨ham, hau⟩ := findLoc_some db l.uuid a hf
    rw [uuid_inj db hnd a l ham hl hau]

theorem chainOk_mono (db : DB) :
    ∀ (f f' : Nat) (p : Option String), f ≤ f' →
      chainOk db f p = true → chainOk db f' p = true := by
  intro f
  induction f with
  | zero =>
    intro f' p _ h
    cases p with
    | none => cases f' <;> simp [chainOk]
    | some u => simp [chainOk] at h
  | succ f ih =>
    intro f' p hle h
    cases p with
    | none => cases f' <;> simp [chainOk]
    | some u =>
      cases f' with
      | zero => omega
      | succ f2 =>
        simp only [chainOk] at h ⊢
        cases hf : findLoc db u with
        | none => rw [hf] at h; exact (Bool.false_ne_true h).elim
        | some l => rw [hf] at h; exact ih f2 l.parent_id (by omega) h

theorem ancList_mem (db : DB) :
    ∀ (f : Nat) (p : Option String) (a : Location),
      a ∈ ancList db f p → a ∈ db.locations := by
  intro f
  induction f with
  | zero =>
    intro p a ha
    cases p <;> simp [ancList] at ha
  | succ f ih =>
    intro p a ha
    cases p with
    | none => simp [ancList] at ha
    | some u =>
      simp only [ancList] at ha
      cases hf : findLoc db u with
      | none => rw [hf] at ha; simp at ha
      | some l =>
        rw [hf] at ha
        rcases List.mem_cons.mp ha with h | h
        · subst h
          exact (findLoc_some db u a hf).1
        · exact ih l.parent_id a h

theorem ancList_length_le (db : DB) :
    ∀ (f : Nat) (p : Option String), (ancList db f p).length ≤ f := by
  intro f
  induction f with
  | zero =>
    intro p
    cases p <;> simp [ancList]
  | succ f ih =>
    intro p
    cases p with
    | none => simp [ancList]
    | some u =>
      simp only [ancList]
      cases findLoc db u with
      | none => simp
      | some l =>
        simp only [List.length_cons]
        exact Nat.succ_le_succ (ih l.parent_id)

theorem ancList_get_next (db : DB) :
    ∀ (f : Nat) (p : Option String) (i : Nat) (a : Location),
      chainOk db f p = true → (ancList db f p).get? i = some a →
      ∀ w, a.parent_id = some w →
      ∃ b, (ancList db f p).get? (i + 1) = some b ∧ b.uuid = w := by
  intro f
  induction f with
  | zero =>
    intro p i a hok hget w hw
    cases p with
    | none => simp [ancList] at hget
    | some u => simp [chainOk] at hok
  | succ f ih =>
    intro p i a hok hget w hw
    cases p with
    | none => simp [ancList] at hget
    | some u =>
      simp only [chainOk] at hok
      cases hf : findLoc db u with
      | none => rw [hf] at hok; simp at hok
      | some l =>
        rw [hf] at hok
        simp only [ancList, hf] at hget ⊢
        cases i with
        | zero =>
          simp only [List.get?] at hget
          cases hget
          have hok2 : chainOk db f (some w) = true := by
            rw [← hw]; exact hok
          cases f with
          | zero => simp [chainOk] at hok2
          | succ f2 =>
            simp only [chainOk] at hok2
            cases hf2 : findLoc db w with
            | none => rw [hf2] at hok2; simp at hok2
            | some b =>
              refine ⟨b, ?_, (findLoc_some db w b hf2).2⟩
              simp only [List.get?]
              rw [hw]
              simp [ancList, hf2]
        | succ i =>
          simp only [List.get?] at hget ⊢
          exact ih l.parent_id i a hok hget w hw

theorem chainOk_none (db : DB) (f : Nat) : chainOk db f none = true := by
  cases f <;> rfl

theorem ancList_none (db : DB) (f : Nat) : ancList db f none = [] := by
  cases f <;> rfl

theorem fixupChain_none (db : DB) (f : Nat) :
    fixupChain db f none = JVal.null := by
  cases f <;> rfl

theorem dlookup_fixupNode_uuid (p : Location) (pv : JVal) :
    dlookup (fixupNode p pv) "uuid" = some (JVal.str p.uuid) := by
  simp [fixupNode, dlookup, List.find?]

theorem dlookup_fixupNode_parent (p : Location) (pv : JVal) :
    dlookup (fixupNode p pv) "parent" = some pv := by
  simp [fixupNode, dlookup, List.find?]

theorem dlookup_fixupNode_ltype (p : Location) (pv : JVal) :
    dlookup (fixupNode p pv) "location_type" = some (optStrJ p.location_type) := by
  simp [fixupNode, dlookup, List.find?]

theorem dlookup_fixupNode_ods (p : Location) (pv : JVal) :
    dlookup (fixupNode p pv) "ods_code" = some (optStrJ p.ods_code) := by
  simp [fixupNode, dlookup, List.find?]

theorem dlookup_fixupNode_dname (p : Location) (pv : JVal) :
    dlookup (fixupNode p pv) "display_name" = some (JVal.str p.display_name) := by
  simp [fixupNode, dlookup, List.find?]

theorem jstrIs_refl (s : String) : jstrIs (some (JVal.str s)) s = true := by
  simp [jstrIs]

theorem joptStrIs_refl (o : Option String) :
    joptStrIs (some (optStrJ o)) o = true := by
  cases o <;> simp [joptStrIs, optStrJ]

/-- The chain substituted by `fixup_parents` matches the claim's chain shape
against the true ancestor list, for every fully resolving cycle-free parent
reference in a store with non-empty uuids. -/
theorem isChainB_fixupChain (db : DB)
    (hne : ∀ l ∈ db.locations, ¬ l.uuid = "") :
    ∀ (f : Nat) (p : Option String), chainOk db f p = true →
      isChainB (fixupChain db f p) (ancList db f p) = true := by
  intro f
  induction f with
  | zero =>
    intro p h
    cases p with
    | none => rfl
    | some u => simp [chainOk] at h
  | succ f ih =>
    intro p h
    cases p with
    | none => rfl
    | some u =>
      simp only [chainOk] at h
      cases hf : findLoc db u with
      | none => rw [hf] at h; simp at h
      | some l =>
        rw [hf] at h
        simp only [fixupChain, ancList, hf]
        simp only [isChainB]
        rw [dlookup_fixupNode_uuid, dlookup_fixupNode_parent,
          dlookup_fixupNode_ltype, dlookup_fixupNode_ods,
          dlookup_fixupNode_dname]
        rw [jstrIs_refl, joptStrIs_refl, joptStrIs_refl, jstrIs_refl]
        simp only [Bool.true_and]
        cases hp : l.parent_id with
        | none =>
          rw [ancList_none]
          simp [truthyS, optStrJ, isChainB]
        | some w =>
          have hok : chainOk db f (some w) = true := by rw [← hp]; exact h
          have hwne : ¬ w = "" := by
            cases f with
            | zero => simp [chainOk] at hok
            | succ f2 =>
              simp only [chainOk] at hok
              cases hf2 : findLoc db w with
              | none => rw [hf2] at hok; simp at hok
              | some lw =>
                obtain ⟨hm2, hu2⟩ := findLoc_some db w lw hf2
                intro hwe
                exact hne lw hm2 (by rw [hu2, hwe])
          have ht : truthyS (some w) = true := by
            simp [truthyS, hwne]
          rw [ht]
          simp only [if_true]
          exact ih (some w) hok

/-! ## Search result structure lemmas -/

theorem compact_parent (l : Location) (cs : Option (List String)) :
    dlookup (l.to_compact_dict cs) "parent" = some (optStrJ l.parent_id) := by
  simp [Location.to_compact_dict, dlookup, List.find?]

theorem compact_uuid (l : Location) (cs : Option (List String)) :
    dlookup (l.to_compact_dict cs) "uuid" = some (JVal.str l.uuid) := by
  simp [Location.to_compact_dict, dlookup, List.find?]

theorem compact_children (l : Location) (cs : Option (List String)) :
    dlookup (l.to_compact_dict cs) "children" =
      (match cs with
       | some c => some (JVal.arr (c.map JVal.str))
       | none => none) := by
  cases cs <;> cases hs : truthyS l.score_system_default <;>
    simp [Location.to_compact_dict, dlookup, List.find?, hs]

theorem compact_no_dh (l : Location) (cs : Option (List String)) :
    hasKey (l.to_compact_dict cs) "dh_products" = false := by
  cases cs <;> cases hs : truthyS l.score_system_default <;>
    simp [Location.to_compact_dict, hasKey, hs]

theorem addr_ident_no_children (l : Location) :
    dlookup (l.pack_address ++ l.pack_identifier) "children" = none := by
  simp [Location.pack_address, Location.pack_identifier, dlookup, List.find?]

theorem to_dict_parent (db : DB) (l : Location) (compact : Bool)
    (cs : Option (List String)) :
    dlookup (Location.to_dict db l compact cs false) "parent" =
      some (optStrJ l.parent_id) := by
  cases compact with
  | true => simp only [Location.to_dict, if_true]; exact compact_parent l cs
  | false =>
    simp only [Location.to_dict, Bool.false_eq_true, if_false]
    rw [List.append_assoc, dlookup_append]
    rw [dlookup_cons_ne "dh_products" "parent" _ _ (by decide)]
    rw [compact_parent]
    rfl

theorem to_dict_uuid (db : DB) (l : Location) (compact : Bool)
    (cs : Option (List String)) :
    dlookup (Location.to_dict db l compact cs false) "uuid" =
      some (JVal.str l.uuid) := by
  cases compact with
  | true => simp only [Location.to_dict, if_true]; exact compact_uuid l cs
  | false =>
    simp only [Location.to_dict, Bool.false_eq_true, if_false]
    rw [List.append_assoc, dlookup_append]
    rw [dlookup_cons_ne "dh_products" "uuid" _ _ (by decide)]
    rw [compact_uuid]
    rfl

theorem to_dict_children (db : DB) (l : Location) (compact : Bool)
    (cs : Option (List String)) :
    dlookup (Location.to_dict db l compact cs false) "children" =
      (match cs with
       | some c => some (JVal.arr (c.map JVal.str))
       | none => none) := by
  cases compact with
  | true => simp only [Location.to_dict, if_true]; exact compact_children l cs
  | false =>
    simp only [Location.to_dict, Bool.false_eq_true, if_false]
    rw [List.append_assoc, dlookup_append]
    rw [dlookup_cons_ne "dh_products" "children" _ _ (by decide)]
    rw [compact_children]
    cases cs with
    | some c => rfl
    | none => rw [addr_ident_no_children]; rfl

theorem to_dict_dh (db : DB) (l : Location) (cs : Option (List String)) :
    hasKey (Location.to_dict db l true cs false) "dh_products" = false := by
  simp only [Location.to_dict, if_true]
  exact compact_no_dh l cs

/-- Membership in a location search result: exactly the records obtained by
serialising a location that passes all the filters (including the product
join) and fixing up its parent entry. -/
theorem mem_location_search (db : DB) (lu : Option (List String))
    (pn : Option (List String)) (act : Option Bool) (oc : Option String)
    (lt : Option (List String)) (cp ch : Bool) (r : Dict) :
    r ∈ location_search db lu pn act oc lt cp ch ↔
    ∃ l, l ∈ db.locations ∧ matchesFilters l lu act oc lt = true ∧
      prodOk db (productNames pn) l.uuid = true ∧
      r = fixupRec db (Location.to_dict db l cp
        (if ch then
          some (descend db (productNames pn) db.locations.length l.uuid)
         else none) false) := by
  constructor
  · intro hr
    simp only [location_search, fixup_parents] at hr
    rcases List.mem_map.mp hr with ⟨rec, hrec, hfix⟩
    rcases List.mem_map.mp hrec with ⟨row, hrow, hdict⟩
    rcases List.mem_flatMap.mp hrow with ⟨l, hl, hjoin⟩
    rcases List.mem_map.mp hjoin with ⟨l', hl', hrow2⟩
    have hlf := List.mem_filter.mp hl
    have hjm : l' = l ∧ prodOk db (productNames pn) l.uuid = true := by
      cases hpf : productNames pn with
      | none => simpa [joinRows, hpf, prodOk] using hl'
      | some ns =>
        simp only [joinRows, hpf] at hl'
        rcases List.mem_map.mp hl' with ⟨q, hq, he⟩
        refine ⟨he.symm, ?_⟩
        simp only [prodOk, hpf]
        have : matchingProducts db ns l.uuid ≠ [] := by
          intro hnil
          rw [hnil] at hq
          exact List.not_mem_nil q hq
        simp [List.isEmpty_eq_false.mpr this]
    refine ⟨l, hlf.1, hlf.2, hjm.2, ?_⟩
    rw [← hfix, ← hdict, ← hrow2, hjm.1]
  · rintro ⟨l, hl, hflt, hpo, hr⟩
    simp only [location_search, fixup_parents]
    refine List.mem_map.mpr ⟨Location.to_dict db l cp
      (if ch then
        some (descend db (productNames pn) db.locations.length l.uuid)
       else none) false, ?_, hr.symm ▸ rfl⟩
    refine List.mem_map.mpr ⟨(l,
      if ch then
        some (descend db (productNames pn) db.locations.length l.uuid)
      else none), ?_, rfl⟩
    refine List.mem_flatMap.mpr ⟨l, List.mem_filter.mpr ⟨hl, hflt⟩, ?_⟩
    refine List.mem_map.mpr ⟨l, ?_, rfl⟩
    cases hpf : productNames pn with
    | none => simp [joinRows, hpf]
    | some ns =>
      simp only [joinRows, hpf]
      simp only [prodOk, hpf] at hpo
      have hne : matchingProducts db ns l.uuid ≠ [] := by
        intro hnil
        rw [hnil] at hpo
        simp [List.isEmpty] at hpo
      cases hm : matchingProducts db ns l.uuid with
      | nil => exact absurd hm hne
      | cons q qs => simp

theorem fixupRec_parent_null (db : DB) (r : Dict)
    (h : dlookup r "parent" = some JVal.null) : fixupRec db r = r := by
  simp [fixupRec, h]

theorem fixupRec_parent_str (db : DB) (r : Dict) (u : String)
    (h : dlookup r "parent" = some (JVal.str u)) (hu : ¬ u = "") :
    fixupRec db r =
      dictSet r "parent" (fixupChain db db.locations.length (some u)) := by
  simp [fixupRec, h, hu]

theorem dlookup_fixupRec_ne (db : DB) (rec : Dict) (k : String)
    (hk : ¬ k = "parent") :
    dlookup (fixupRec db rec) k = dlookup rec k := by
  unfold fixupRec
  cases hp : dlookup rec "parent" with
  | none => rfl
  | some v =>
    cases v with
    | str u =>
      show dlookup
        (if u = "" then rec
         else dictSet rec "parent"
           (fixupChain db db.locations.length (some u))) k = dlookup rec k
      by_cases hu : u = ""
      · rw [if_pos hu]
      · rw [if_neg hu]
        exact dlookup_dictSet_ne rec "parent" k _ hk
    | null => rfl
    | bool b => rfl
    | nat n => rfl
    | arr a => rfl
    | obj o => rfl

theorem hasKey_fixupRec_ne (db : DB) (rec : Dict) (k : String)
    (hk : ¬ k = "parent") :
    hasKey (fixupRec db rec) k = hasKey rec k := by
  rw [← dlookup_isSome_iff_hasKey, ← dlookup_isSome_iff_hasKey,
    dlookup_fixupRec_ne db rec k hk]

theorem chainOk_head_ne_empty (db : DB)
    (hne : ∀ l ∈ db.locations, ¬ l.uuid = "") (f : Nat) (u : String)
    (h : chainOk db f (some u) = true) : ¬ u = "" := by
  cases f with
  | zero => simp [chainOk] at h
  | succ f2 =>
    simp only [chainOk] at h
    cases hf : findLoc db u with
    | none => rw [hf] at h; simp at h
    | some lw =>
      obtain ⟨hm, hu2⟩ := findLoc_some db u lw hf
      intro hwe
      exact hne lw hm (by rw [hu2, hwe])

/-- The shape of every record in a search result, in a well-formed store:
it belongs to a location passing the filters, carries that location's uuid,
its `parent` entry is a fixed-up chain matching the location's true ancestor
list, its `children` entry is exactly the aggregated descendant array when
`children` was requested and absent otherwise, and the compact shape carries
no `dh_products` key. -/
theorem search_record_core (db : DB) (hwf : WF db)
    (lu pn : Option (List String)) (act : Option Bool) (oc : Option String)
    (lt : Option (List String)) (cp ch : Bool) (r : Dict)
    (hr : r ∈ location_search db lu pn act oc lt cp ch) :
    ∃ l, l ∈ db.locations ∧ matchesFilters l lu act oc lt = true ∧
      prodOk db (productNames pn) l.uuid = true ∧
      dlookup r "uuid" = some (JVal.str l.uuid) ∧
      (∃ pv, dlookup r "parent" = some pv ∧
        isChainB pv (ancList db db.locations.length l.parent_id) = true) ∧
      dlookup r "children" =
        (if ch then
          some (JVal.arr
            ((descend db (productNames pn) db.locations.length l.uuid).map
              JVal.str))
         else none) ∧
      (cp = true → hasKey r "dh_products" = false) := by
  obtain ⟨hnd, hne, hchains⟩ := hwf
  rcases (mem_location_search db lu pn act oc lt cp ch r).mp hr with
    ⟨l, hl, hflt, hpo, hrec⟩
  set cs : Option (List String) :=
    (if ch then
      some (descend db (productNames pn) db.locations.length l.uuid)
     else none) with hcs
  have hparent := to_dict_parent db l cp cs
  have huuid := to_dict_uuid db l cp cs
  have hchildren := to_dict_children db l cp cs
  have hchain := hchains l hl
  cases hp : l.parent_id with
  | none =>
    rw [hp] at hparent
    have hfix : fixupRec db (Location.to_dict db l cp cs false) =
        Location.to_dict db l cp cs false :=
      fixupRec_parent_null db _ hparent
    rw [hfix] at hrec
    subst hrec
    refine ⟨l, hl, hflt, hpo, huuid, ⟨JVal.null, hparent, ?_⟩, ?_, ?_⟩
    · rw [hp, ancList_none]
      rfl
    · rw [hchildren]
      cases ch <;> rfl
    · intro hcp
      subst hcp
      exact to_dict_dh db l cs
  | some u =>
    rw [hp] at hparent hchain
    have hu : ¬ u = "" := chainOk_head_ne_empty db hne _ u hchain
    have hfix := fixupRec_parent_str db (Location.to_dict db l cp cs false) u
      hparent hu
    rw [hfix] at hrec
    subst hrec
    refine ⟨l, hl, hflt, hpo, ?_, ?_, ?_, ?_⟩
    · rw [dlookup_dictSet_ne _ _ _ _ (by decide), huuid]
    · refine ⟨fixupChain db db.locations.length (some u),
        dlookup_dictSet_self _ _ _, ?_⟩
      rw [hp]
      exact isChainB_fixupChain db hne db.locations.length (some u) hchain
    · rw [dlookup_dictSet_ne _ _ _ _ (by decide), hchildren]
      cases ch <;> rfl
    · intro hcp
      subst hcp
      rw [hasKey_dictSet_ne _ _ _ _ (by decide)]
      exact to_dict_dh db l cs

/-! ## Descendant resolver lemmas -/

theorem mem_joinRows (db : DB) (pf : Option (List String)) (l l' : Location) :
    l' ∈ joinRows db pf l ↔ l' = l ∧ prodOk db pf l.uuid = true := by
  cases hpf : pf with
  | none => simp [joinRows, prodOk]
  | some ns =>
    simp only [joinRows, prodOk]
    constructor
    · intro h
      rcases List.mem_map.mp h with ⟨q, hq, he⟩
      refine ⟨he.symm, ?_⟩
      have : matchingProducts db ns l.uuid ≠ [] := by
        intro hnil
        rw [hnil] at hq
        exact List.not_mem_nil q hq
      simp [List.isEmpty_eq_false.mpr this]
    · rintro ⟨he, hp⟩
      subst he
      have hne : matchingProducts db ns l'.uuid ≠ [] := by
        intro hnil
        rw [hnil] at hp
        simp [List.isEmpty] at hp
      cases hm : matchingProducts db ns l'.uuid with
      | nil => exact absurd hm hne
      | cons q qs => simp

theorem mem_childRows (db : DB) (pf : Option (List String)) (u : String)
    (c : Location) :
    c ∈ childRows db pf u ↔
      c ∈ db.locations ∧ c.parent_id = some u ∧ prodOk db pf c.uuid = true := by
  simp only [childRows]
  constructor
  · intro h
    rcases List.mem_flatMap.mp h with ⟨c', hc', hj⟩
    rcases (mem_joinRows db pf c' c).mp hj with ⟨he, hp⟩
    subst he
    have := List.mem_filter.mp hc'
    exact ⟨this.1, by simpa using this.2, hp⟩
  · rintro ⟨hm, hp, hpo⟩
    refine List.mem_flatMap.mpr ⟨c, List.mem_filter.mpr ⟨hm, by simpa using hp⟩, ?_⟩
    exact (mem_joinRows db pf c c).mpr ⟨rfl, hpo⟩

theorem mem_descend (db : DB) (pf : Option (List String)) :
    ∀ (f : Nat) (u x : String),
      x ∈ descend db pf f u ↔
        stepsTo db (fun c => prodOk db pf c.uuid) f u x := by
  intro f
  induction f with
  | zero =>
    intro u x
    simp [descend, stepsTo]
  | succ f ih =>
    intro u x
    simp only [descend, stepsTo]
    constructor
    · intro h
      rcases List.mem_flatMap.mp h with ⟨c, hc, hx⟩
      rcases (mem_childRows db pf u c).mp hc with ⟨hm, hp, hpo⟩
      rcases List.mem_cons.mp hx with he | hd
      · exact ⟨c, hm, hp, hpo, Or.inl he.symm⟩
      · exact ⟨c, hm, hp, hpo, Or.inr ((ih c.uuid x).mp hd)⟩
    · rintro ⟨c, hm, hp, hpo, hrest⟩
      refine List.mem_flatMap.mpr ⟨c, (mem_childRows db pf u c).mpr ⟨hm, hp, hpo⟩, ?_⟩
      rcases hrest with he | hs
      · exact List.mem_cons.mpr (Or.inl he.symm)
      · exact List.mem_cons.mpr (Or.inr ((ih c.uuid x).mpr hs))

theorem stepsTo_mono (db : DB) (φ : Location → Bool) :
    ∀ (f f' : Nat) (u x : String), f ≤ f' →
      stepsTo db φ f u x → stepsTo db φ f' u x := by
  intro f
  induction f with
  | zero => intro f' u x _ h; exact absurd h (by simp [stepsTo])
  | succ f ih =>
    intro f' u x hle h
    cases f' with
    | zero => omega
    | succ f2 =>
      rcases h with ⟨l, hm, hp, hphi, hrest⟩
      refine ⟨l, hm, hp, hphi, ?_⟩
      rcases hrest with he | hs
      · exact Or.inl he
      · exact Or.inr (ih f2 l.uuid x (by omega) hs)

theorem stepsTo_isDescM (db : DB) (φ : Location → Bool) :
    ∀ (f : Nat) (u x : String), stepsTo db φ f u x → IsDescM db φ u x := by
  intro f
  induction f with
  | zero => intro u x h; exact absurd h (by simp [stepsTo])
  | succ f ih =>
    intro u x h
    rcases h with ⟨l, hm, hp, hphi, hrest⟩
    rcases hrest with he | hs
    · exact he ▸ IsDescM.child u l hm hp hphi
    · exact IsDescM.step u l x hm hp hphi (ih l.uuid x hs)

/-- The position of the starting node in the target's ancestor chain bounds
the fuel a descent derivation needs: each `IsDescM` witness yields a
`stepsTo` path of length one more than the index at which the root occurs in
the target's ancestor list. -/
theorem isDescM_anc (db : DB)
    (hnd : (db.locations.map (fun l => l.uuid)).Nodup)
    (hchains : ∀ l ∈ db.locations,
      chainOk db db.locations.length l.parent_id = true)
    (φ : Location → Bool) (u x : String) (h : IsDescM db φ u x) :
    ∃ lx, lx ∈ db.locations ∧ lx.uuid = x ∧
      ∃ k, stepsTo db φ (k + 1) u x ∧
        ∃ a, (ancList db db.locations.length lx.parent_id).get? k = some a ∧
          a.uuid = u := by
  induction h with
  | child u l hl hp hphi =>
    refine ⟨l, hl, rfl, 0, ⟨l, hl, hp, hphi, Or.inl rfl⟩, ?_⟩
    have hchain := hchains l hl
    rw [hp] at hchain ⊢
    cases hN : db.locations.length with
    | zero => rw [hN] at hchain; simp [chainOk] at hchain
    | succ n =>
      rw [hN] at hchain
      simp only [chainOk] at hchain
      cases hf : findLoc db u with
      | none => rw [hf] at hchain; simp at hchain
      | some a =>
        refine ⟨a, ?_, (findLoc_some db u a hf).2⟩
        simp [ancList, hf]
  | step u l x hl hp hphi hsub ih =>
    rcases ih with ⟨lx, hlx, hx, k, hsteps, a, hget, hau⟩
    have ha_mem : a ∈ db.locations :=
      ancList_mem db db.locations.length lx.parent_id a
        (List.get?_mem hget)
    have hal : a = l := uuid_inj db hnd a l ha_mem hl hau
    have hchain := hchains lx hlx
    rcases ancList_get_next db db.locations.length lx.parent_id k a hchain
        hget u (by rw [hal, hp]) with ⟨b, hgetb, hbu⟩
    exact ⟨lx, hlx, hx, k + 1, ⟨l, hl, hp, hphi, Or.inr hsteps⟩,
      b, hgetb, hbu⟩

/-- In a well-formed store, one fuel unit per row reaches every descendant:
the fueled path relation at the store size coincides with the spec-side
descendant relation. -/
theorem stepsTo_iff_isDescM (db : DB) (hwf : WF db) (φ : Location → Bool)
    (u x : String) :
    stepsTo db φ db.locations.length u x ↔ IsDescM db φ u x := by
  constructor
  · exact stepsTo_isDescM db φ db.locations.length u x
  · intro h
    obtain ⟨hnd, _, hchains⟩ := hwf
    rcases isDescM_anc db hnd hchains φ u x h with
      ⟨lx, hlx, hx, k, hsteps, a, hget, hau⟩
    have hk : k < (ancList db db.locations.length lx.parent_id).length :=
      List.get?_eq_some.mp hget |>.choose
    have hlen := ancList_length_le db db.locations.length lx.parent_id
    exact stepsTo_mono db φ (k + 1) db.locations.length u x (by omega) hsteps

/-- Membership in the aggregated `children` arrays coincides with the
spec-side (product-filtered) descendant relation, in a well-formed store. -/
theorem mem_descend_iff (db : DB) (hwf : WF db) (pf : Option (List String))
    (u x : String) :
    x ∈ descend db pf db.locations.length u ↔
      IsDescM db (fun c => prodOk db pf c.uuid) u x := by
  rw [mem_descend db pf db.locations.length u x]
  exact stepsTo_iff_isDescM db hwf (fun c => prodOk db pf c.uuid) u x

/-! ## Open/closed irrelevance of the product filter -/

theorem setClosed_locations (g : LocationProduct → Option Nat) (db : DB) :
    (setClosed g db).locations = db.locations := rfl

theorem matchingProducts_setClosed (g : LocationProduct → Option Nat)
    (db : DB) (ns : List String) (u : String) :
    matchingProducts (setClosed g db) ns u =
      (matchingProducts db ns u).map (fun p => { p with closed_date := g p }) := by
  simp only [matchingProducts, setClosed]
  rw [List.filter_map]
  rfl

theorem prodOk_setClosed (g : LocationProduct → Option Nat) (db : DB)
    (pf : Option (List String)) (u : String) :
    prodOk (setClosed g db) pf u = prodOk db pf u := by
  cases pf with
  | none => rfl
  | some ns =>
    simp only [prodOk, matchingProducts_setClosed]
    cases matchingProducts db ns u <;> rfl

theorem joinRows_setClosed (g : LocationProduct → Option Nat) (db : DB)
    (pf : Option (List String)) (l : Location) :
    joinRows (setClosed g db) pf l = joinRows db pf l := by
  cases pf with
  | none => rfl
  | some ns =>
    simp only [joinRows, matchingProducts_setClosed, List.map_map]
    rfl

theorem childRows_setClosed (g : LocationProduct → Option Nat) (db : DB)
    (pf : Option (List String)) (u : String) :
    childRows (setClosed g db) pf u = childRows db pf u := by
  simp only [childRows, setClosed_locations]
  rw [funext (joinRows_setClosed g db pf)]

theorem descend_setClosed (g : LocationProduct → Option Nat) (db : DB)
    (pf : Option (List String)) :
    ∀ (f : Nat) (u : String),
      descend (setClosed g db) pf f u = descend db pf f u := by
  intro f
  induction f with
  | zero => intro u; rfl
  | succ f ih =>
    intro u
    simp only [descend, childRows_setClosed]
    rw [funext (fun c => by rw [ih] :
      ∀ c : Location,
        (c.uuid :: descend (setClosed g db) pf f c.uuid) =
          (c.uuid :: descend db pf f c.uuid))]

theorem fixupChain_setClosed (g : LocationProduct → Option Nat) (db : DB) :
    ∀ (f : Nat) (p : Option String),
      fixupChain (setClosed g db) f p = fixupChain db f p := by
  intro f
  induction f with
  | zero => intro p; cases p <;> rfl
  | succ f ih =>
    intro p
    cases p with
    | none => rfl
    | some u =>
      have hfl : findLoc (setClosed g db) u = findLoc db u := rfl
      simp only [fixupChain, hfl, ih]

theorem fixupRec_setClosed (g : LocationProduct → Option Nat) (db : DB)
    (r : Dict) : fixupRec (setClosed g db) r = fixupRec db r := by
  unfold fixupRec
  cases hp : dlookup r "parent" with
  | none => rfl
  | some v =>
    cases v with
    | str u =>
      show (if u = "" then r
        else dictSet r "parent"
          (fixupChain (setClosed g db) (setClosed g db).locations.length
            (some u))) =
        (if u = "" then r
         else dictSet r "parent"
           (fixupChain db db.locations.length (some u)))
      rw [show (setClosed g db).locations.length = db.locations.length from rfl,
        fixupChain_setClosed]
    | null => rfl
    | bool b => rfl
    | nat n => rfl
    | arr a => rfl
    | obj o => rfl

/-- Compact search results are identical however the `closed_date` columns
are set: the search and descendant queries read only `location_uuid` and
`product_name` from the `location_product` table. -/
theorem location_search_setClosed (g : LocationProduct → Option Nat)
    (db : DB) (lu pn : Option (List String)) (act : Option Bool)
    (oc : Option String) (lt : Option (List String)) (ch : Bool) :
    location_search (setClosed g db) lu pn act oc lt true ch =
      location_search db lu pn act oc lt true ch := by
  simp only [location_search, setClosed_locations, joinRows_setClosed,
    descend_setClosed, fixup_parents, List.map_map]
  apply List.map_congr_left
  intro row hrow
  simp only [Function.comp]
  rw [fixupRec_setClosed]
  rfl

theorem prodOk_some_iff (db : DB) (ns : List String) (u : String) :
    prodOk db (some ns) u = true ↔
      ∃ p, p ∈ db.products ∧ p.location_uuid = u ∧ p.product_name ∈ ns := by
  simp only [prodOk]
  constructor
  · intro h
    cases hm : matchingProducts db ns u with
    | nil => rw [hm] at h; simp [List.isEmpty] at h
    | cons q qs =>
      have hq : q ∈ matchingProducts db ns u := by
        rw [hm]; exact List.mem_cons_self q qs
      have hf := List.mem_filter.mp hq
      have hb := (Bool.and_eq_true _ _).mp hf.2
      refine ⟨q, hf.1, by simpa using hb.1, ?_⟩
      have := hb.2
      exact List.elem_iff.mp this
  · rintro ⟨p, hp, hu, hn⟩
    have hmem : p ∈ matchingProducts db ns u :=
      List.mem_filter.mpr ⟨hp, by
        refine (Bool.and_eq_true _ _).mpr ⟨by simpa using hu, ?_⟩
        exact List.elem_iff.mpr hn⟩
    cases hm : matchingProducts db ns u with
    | nil => rw [hm] at hmem; exact absurd hmem (List.not_mem_nil p)
    | cons q qs => rfl

/-! ## Mutation engine lemmas -/

theorem addProductRows_locations (lu : String) :
    ∀ (ps : List ProductDetails) (db : DB) (ctr : Nat),
      (addProductRows lu db ctr ps).1.locations = db.locations := by
  intro ps
  induction ps with
  | nil => intro db ctr; rfl
  | cons pd rest ih =>
    intro db ctr
    simp only [addProductRows]
    rw [ih]

theorem resolveParent_not_found (db : DB) (d : CreateDetails) (c : String)
    (hc : d.parent_ods_code = some c) (hcne : ¬ c = "")
    (hf : findLocByOds db c = none) :
    resolveParent db d =
      Except.error
        (Err.valueError ("Parent location with ods_code " ++ c ++ " not found")) := by
  simp only [resolveParent, hc, hf]
  rw [if_neg hcne]

theorem resolveParent_mismatch (db : DB) (d : CreateDetails) (c : String)
    (pl : Location) (p : String) (hc : d.parent_ods_code = some c)
    (hcne : ¬ c = "") (hf : findLocByOds db c = some pl)
    (hp : d.parent = some p) (hpne : ¬ p = "") (hne : ¬ pl.uuid = p) :
    resolveParent db d =
      Except.error (Err.valueError "Location may only have one parent") := by
  simp only [resolveParent, hc, hf, hp]
  rw [if_neg hcne]
  rw [if_pos]
  refine (Bool.and_eq_true _ _).mpr ⟨?_, ?_⟩
  · simp [hpne]
  · simp [hne]

theorem resolveParent_agree (db : DB) (d : CreateDetails) (c : String)
    (pl : Location) (hc : d.parent_ods_code = some c) (hcne : ¬ c = "")
    (hf : findLocByOds db c = some pl)
    (hag : d.parent = none ∨ d.parent = some pl.uuid) :
    resolveParent db d = Except.ok (some pl.uuid) := by
  simp only [resolveParent, hc, hf]
  rw [if_neg hcne]
  rcases hag with hnone | hsome
  · simp only [hnone]
  · simp only [hsome]
    simp

theorem locationNew_err (db : DB) (ctr : Nat) (d : CreateDetails) (e : Err)
    (h : resolveParent db d = Except.error e) :
    locationNew db ctr d = Except.error e := by
  simp only [locationNew, h]

theorem locationNew_of_resolve (db : DB) (ctr : Nat) (d : CreateDetails)
    (par : Option String) (h : resolveParent db d = Except.ok par) :
    ∃ db1 loc c1, locationNew db ctr d = Except.ok (db1, loc, c1) ∧
      loc.parent_id = par ∧ loc.ods_code = d.ods_code ∧
      db1.locations = db.locations ++ [loc] := by
  simp only [locationNew, h]
  refine ⟨_, _, _, rfl, rfl, rfl, ?_⟩
  rw [addProductRows_locations]

theorem locationNew_ok (db : DB) (ctr : Nat) (d : CreateDetails) (db1 : DB)
    (loc : Location) (c1 : Nat)
    (h : locationNew db ctr d = Except.ok (db1, loc, c1)) :
    loc.ods_code = d.ods_code ∧ db1.locations = db.locations ++ [loc] := by
  cases hrp : resolveParent db d with
  | error e =>
    rw [locationNew_err db ctr d e hrp] at h
    exact Except.noConfusion h
  | ok par =>
    rcases locationNew_of_resolve db ctr d par hrp with
      ⟨db1', loc', c1', he, _, hods, hlocs⟩
    rw [he] at h
    have ht := Except.ok.inj h
    have h1 : db1' = db1 := congrArg Prod.fst ht
    have h2 : loc' = loc := congrArg (fun t => t.2.1) ht
    subst h1
    subst h2
    exact ⟨hods, hlocs⟩

theorem create_location_err (db : DB) (ctr : Nat) (d : CreateDetails) (e : Err)
    (h : locationNew db ctr d = Except.error e) :
    create_location db ctr d = (Except.error e, db) := by
  simp only [create_location, h]

theorem hasOdsConflict_iff (ls : List Location) :
    hasOdsConflict ls = true ↔
      ¬ (ls.filterMap (fun l => l.ods_code)).Nodup := by
  simp [hasOdsConflict]

theorem locationNewMany_ods :
    ∀ (ds : List CreateDetails) (db : DB) (ctr : Nat) (db2 : DB) (c2 : Nat),
      locationNewMany db ctr ds = Except.ok (db2, c2) →
      db2.locations.filterMap (fun l => l.ods_code) =
        db.locations.filterMap (fun l => l.ods_code) ++
          ds.filterMap (fun d => d.ods_code) := by
  intro ds
  induction ds with
  | nil =>
    intro db ctr db2 c2 h
    have ht := Except.ok.inj h
    have h1 : db = db2 := congrArg Prod.fst ht
    subst h1
    simp
  | cons d rest ih =>
    intro db ctr db2 c2 h
    simp only [locationNewMany] at h
    cases hn : locationNew db ctr d with
    | error e => rw [hn] at h; exact Except.noConfusion h
    | ok t =>
      rw [hn] at h
      obtain ⟨db1, loc, c1⟩ := t
      have hok := locationNew_ok db ctr d db1 loc c1 hn
      have hrec := ih db1 c1 db2 c2 h
      rw [hrec, hok.2, List.filterMap_append]
      have hfl : [loc].filterMap (fun l => l.ods_code) =
          (match d.ods_code with
           | some oc => [oc]
           | none => []) := by
        cases hoc : d.ods_code <;> simp [List.filterMap_cons, hok.1, hoc]
      cases hoc : d.ods_code with
      | none => simp [hfl, hoc, List.filterMap_cons]
      | some oc => simp [hfl, hoc, List.filterMap_cons]

theorem hasOdsConflict_eq_false (ls : List Location)
    (h : (ls.filterMap (fun l => l.ods_code)).Nodup) :
    hasOdsConflict ls = false := by
  simp [hasOdsConflict, h]

theorem map_replace_self (ls : List Location)
    (hnd : (ls.map (fun x => x.uuid)).Nodup) (l : Location) (hl : l ∈ ls) :
    ls.map (fun x => if x.uuid = l.uuid then l else x) = ls := by
  have h : ∀ x ∈ ls, (if x.uuid = l.uuid then l else x) = x := by
    intro x hx
    by_cases hxe : x.uuid = l.uuid
    · rw [if_pos hxe]
      exact (List.inj_on_of_nodup_map hnd hx hl hxe).symm
    · rw [if_neg hxe]
  calc ls.map (fun x => if x.uuid = l.uuid then l else x)
      = ls.map id := List.map_congr_left h
    _ = ls := List.map_id ls

theorem locationUpdate_products_only (db : DB) (ctr : Nat) (l : Location)
    (pd : ProductDetails) (dbP : DB) (cP : Nat)
    (happ : applyProductUpserts l db ctr [pd] = Except.ok (dbP, cP)) :
    locationUpdate db ctr l { dh_products := some [pd] } =
      Except.ok
        ({ dbP with
           locations := dbP.locations.map (fun x =>
             if x.uuid = l.uuid then
               applySimple l { dh_products := some [pd] } else x) },
         applySimple l { dh_products := some [pd] }, cP) := by
  simp only [locationUpdate, Option.getD_some]
  rw [happ]

theorem locationUpdate_products_err (db : DB) (ctr : Nat) (l : Location)
    (pd : ProductDetails) (e : Err)
    (happ : applyProductUpserts l db ctr [pd] = Except.error e) :
    locationUpdate db ctr l { dh_products := some [pd] } = Except.error e := by
  simp only [locationUpdate, Option.getD_some]
  rw [happ]

theorem update_location_err (db : DB) (ctr : Nat) (u : String) (l : Location)
    (d : UpdateDetails) (e : Err) (hfind : findLoc db u = some l)
    (hupd : locationUpdate db ctr l d = Except.error e) :
    update_location db ctr u d = (Except.error e, db) := by
  simp only [update_location, hfind, hupd]

theorem update_location_ok (db : DB) (ctr : Nat) (u : String)
    (l l2 : Location) (d : UpdateDetails) (db1 : DB) (c1 : Nat)
    (hfind : findLoc db u = some l)
    (hupd : locationUpdate db ctr l d = Except.ok (db1, l2, c1))
    (hconf : hasOdsConflict db1.locations = false) :
    update_location db ctr u d =
      (Except.ok (Location.to_dict db1 l2 false none true), db1) := by
  simp only [update_location, hfind, hupd]
  rw [hconf]
  simp

/-! ## Claim theorems -/

/-- Claim C1: for every location with N ancestors (following `parent_id` up
to a root), a full (non-compact) search or fetch result for that location
contains a chain of exactly N nested `parent` objects ordered nearest parent
first, each carrying `uuid`, `location_type`, `ods_code` and `display_name`,
and the innermost object has `parent = null`. Here `ancList` is the
nearest-parent-first ancestor list of the location (length N in a well-formed
store) and `isChainB` demands exactly one nested object per ancestor, with
those four fields, terminating in a null `parent`. -/
theorem claim_C1_parent_chains (db : DB) (hwf : WF db) :
    (∀ (lu pn : Option (List String)) (act : Option Bool) (oc : Option String)
      (lt : Option (List String)) (ch : Bool) (r : Dict),
      r ∈ location_search db lu pn act oc lt false ch →
      ∃ l, l ∈ db.locations ∧ dlookup r "uuid" = some (JVal.str l.uuid) ∧
        ∃ pv, dlookup r "parent" = some pv ∧
          isChainB pv (ancList db db.locations.length l.parent_id) = true) ∧
    (∀ (u : String) (ch : Bool) (r : Dict),
      get_location_by_uuid db u ch false = Except.ok r →
      ∃ l, l ∈ db.locations ∧ dlookup r "uuid" = some (JVal.str l.uuid) ∧
        ∃ pv, dlookup r "parent" = some pv ∧
          isChainB pv (ancList db db.locations.length l.parent_id) = true) := by
  have main : ∀ (lu pn : Option (List String)) (act : Option Bool)
      (oc : Option String) (lt : Option (List String)) (ch : Bool) (r : Dict),
      r ∈ location_search db lu pn act oc lt false ch →
      ∃ l, l ∈ db.locations ∧ dlookup r "uuid" = some (JVal.str l.uuid) ∧
        ∃ pv, dlookup r "parent" = some pv ∧
          isChainB pv (ancList db db.locations.length l.parent_id) = true := by
    intro lu pn act oc lt ch r hr
    obtain ⟨l, hl, _, _, huuid, hpv, _, _⟩ :=
      search_record_core db hwf lu pn act oc lt false ch r hr
    exact ⟨l, hl, huuid, hpv⟩
  refine ⟨main, ?_⟩
  intro u ch r hok
  unfold get_location_by_uuid at hok
  cases hs : location_search db (some [u]) none none none none false ch with
  | nil => rw [hs] at hok; exact Except.noConfusion hok
  | cons r0 rest =>
    rw [hs] at hok
    have hr0 : r0 = r := Except.ok.inj hok
    subst hr0
    exact main (some [u]) none none none none ch r0
      (by rw [hs]; exact List.mem_cons_self r0 rest)

/-- Witness for C1 at the example store: the full-shape record for the bay
(two ancestors: ward, then hospital). -/
theorem claim_C1_witness :
    WF exDb ∧
    c1rec ∈ location_search exDb (some ["B"]) none none none none false false ∧
    ∃ l, l ∈ exDb.locations ∧ dlookup c1rec "uuid" = some (JVal.str l.uuid) ∧
      ∃ pv, dlookup c1rec "parent" = some pv ∧
        isChainB pv (ancList exDb exDb.locations.length l.parent_id) = true := by
  have hwf : WF exDb := by decide
  have heq : location_search exDb (some ["B"]) none none none none false false =
      [c1rec] := rfl
  have hmem : c1rec ∈
      location_search exDb (some ["B"]) none none none none false false := by
    rw [heq]; exact List.mem_cons_self _ _
  exact ⟨hwf, hmem,
    (claim_C1_parent_chains exDb hwf).1 (some ["B"]) none none none none false
      c1rec hmem⟩

/-- Counterexample to claim C2 as stated: in a compact search the `parent`
field of a location that has a parent is a recursively resolved nested
object, not the immediate parent's UUID string — `location_search` calls
`fixup_parents` regardless of `compact`. -/
theorem claim_C2_counterexample :
    c2rec ∈ location_search exDb (some ["B"]) none none none none true false ∧
    dlookup c2rec "parent" =
      some (fixupChain exDb exDb.locations.length (some "W")) ∧
    ¬ dlookup c2rec "parent" = some (JVal.str "W") ∧
    ¬ dlookup c2rec "parent" = some JVal.null := by
  have heq : location_search exDb (some ["B"]) none none none none true false =
      [c2rec] := rfl
  refine ⟨by rw [heq]; exact List.mem_cons_self _ _, rfl, ?_, ?_⟩
  · intro h
    exact JVal.noConfusion (Option.some.inj h)
  · intro h
    exact JVal.noConfusion (Option.some.inj h)

/-- Claim C2 (amended): every record of a compact search contains no
`dh_products` key; its `parent` field, however, is not the immediate
parent's UUID but the same recursively resolved nested parent chain as in
the full shape (an object chain matching the ancestor list, null for a
root), because `fixup_parents` runs regardless of `compact`. -/
theorem claim_C2_compact_shape (db : DB) (hwf : WF db)
    (lu pn : Option (List String)) (act : Option Bool) (oc : Option String)
    (lt : Option (List String)) (ch : Bool) (r : Dict)
    (hr : r ∈ location_search db lu pn act oc lt true ch) :
    hasKey r "dh_products" = false ∧
    ∃ l, l ∈ db.locations ∧ dlookup r "uuid" = some (JVal.str l.uuid) ∧
      ∃ pv, dlookup r "parent" = some pv ∧
        isChainB pv (ancList db db.locations.length l.parent_id) = true := by
  obtain ⟨l, hl, _, _, huuid, hpv, _, hdh⟩ :=
    search_record_core db hwf lu pn act oc lt true ch r hr
  exact ⟨hdh rfl, l, hl, huuid, hpv⟩

/-- Witness for the amended C2 at the example store: the compact record for
the bay. -/
theorem claim_C2_witness :
    WF exDb ∧
    c2rec ∈ location_search exDb (some ["B"]) none none none none true false ∧
    hasKey c2rec "dh_products" = false ∧
    ∃ l, l ∈ exDb.locations ∧ dlookup c2rec "uuid" = some (JVal.str l.uuid) ∧
      ∃ pv, dlookup c2rec "parent" = some pv ∧
        isChainB pv (ancList exDb exDb.locations.length l.parent_id) = true := by
  have hwf : WF exDb := by decide
  have heq : location_search exDb (some ["B"]) none none none none true false =
      [c2rec] := rfl
  have hmem : c2rec ∈
      location_search exDb (some ["B"]) none none none none true false := by
    rw [heq]; exact List.mem_cons_self _ _
  have h := claim_C2_compact_shape exDb hwf (some ["B"]) none none none none
    false c2rec hmem
  exact ⟨hwf, hmem, h.1, h.2⟩

/-- Claim C4: with `children = true` (and no product filter) every returned
record carries a `children` key holding an array that contains exactly the
location's transitive descendant uuids — the empty array when it has no
descendant, never null — and with `children = false` no record carries a
`children` key at all. -/
theorem claim_C4_children (db : DB) (hwf : WF db) :
    (∀ (lu pn : Option (List String)) (act : Option Bool) (oc : Option String)
      (lt : Option (List String)) (cp : Bool) (r : Dict),
      productNames pn = none →
      r ∈ location_search db lu pn act oc lt cp true →
      ∃ l cs, l ∈ db.locations ∧ dlookup r "uuid" = some (JVal.str l.uuid) ∧
        dlookup r "children" = some (JVal.arr cs) ∧
        (∀ x : String, JVal.str x ∈ cs ↔ IsDescendant db l.uuid x) ∧
        ((∀ x : String, ¬ IsDescendant db l.uuid x) → cs = [])) ∧
    (∀ (lu pn : Option (List String)) (act : Option Bool) (oc : Option String)
      (lt : Option (List String)) (cp : Bool) (r : Dict),
      r ∈ location_search db lu pn act oc lt cp false →
      hasKey r "children" = false) := by
  constructor
  · intro lu pn act oc lt cp r hpn hr
    obtain ⟨l, hl, _, _, huuid, _, hch, _⟩ :=
      search_record_core db hwf lu pn act oc lt cp true r hr
    rw [if_pos rfl, hpn] at hch
    refine ⟨l, (descend db none db.locations.length l.uuid).map JVal.str,
      hl, huuid, hch, ?_, ?_⟩
    · intro x
      constructor
      · intro hx
        rcases List.mem_map.mp hx with ⟨y, hy, he⟩
        have hxy : y = x := by
          cases he
          rfl
        subst hxy
        exact (mem_descend_iff db hwf none l.uuid y).mp hy
      · intro hx
        exact List.mem_map.mpr ⟨x,
          (mem_descend_iff db hwf none l.uuid x).mpr hx, rfl⟩
    · intro hempty
      have hnil : descend db none db.locations.length l.uuid = [] := by
        rw [List.eq_nil_iff_forall_not_mem]
        intro y hy
        exact hempty y ((mem_descend_iff db hwf none l.uuid y).mp hy)
      rw [hnil]
      rfl
  · intro lu pn act oc lt cp r hr
    obtain ⟨l, hl, _, _, _, _, hch, _⟩ :=
      search_record_core db hwf lu pn act oc lt cp false r hr
    rw [if_neg (by simp)] at hch
    rw [← dlookup_isSome_iff_hasKey, hch]
    rfl

/-- Witness for C4 at the example store: the children search rooted at the
hospital (descendants: ward and bay). -/
theorem claim_C4_witness :
    WF exDb ∧ productNames none = none ∧
    c4rec ∈ location_search exDb (some ["H"]) none none none none true true ∧
    ∃ l cs, l ∈ exDb.locations ∧ dlookup c4rec "uuid" = some (JVal.str l.uuid) ∧
      dlookup c4rec "children" = some (JVal.arr cs) ∧
      (∀ x : String, JVal.str x ∈ cs ↔ IsDescendant exDb l.uuid x) ∧
      ((∀ x : String, ¬ IsDescendant exDb l.uuid x) → cs = []) := by
  have hwf : WF exDb := by decide
  have heq : location_search exDb (some ["H"]) none none none none true true =
      [c4rec] := rfl
  have hmem : c4rec ∈
      location_search exDb (some ["H"]) none none none none true true := by
    rw [heq]; exact List.mem_cons_self _ _
  exact ⟨hwf, rfl, hmem,
    (claim_C4_children exDb hwf).1 (some ["H"]) none none none none true c4rec
      rfl hmem⟩

/-- Claim C8: fetching a single location by an absent uuid raises the
NotFound domain error, while a uuid-restricted search never raises — absent
uuids are silently omitted: every returned record belongs to a stored
location among the requested uuids, and no record carries an absent uuid. -/
theorem claim_C8_not_found (db : DB) :
    (∀ (u : String) (ch cp : Bool), findLoc db u = none →
      get_location_by_uuid db u ch cp =
        Except.error (Err.entityNotFound ("Location " ++ u ++ " not found"))) ∧
    (∀ (lu : List String) (pn : Option (List String)) (act : Option Bool)
      (oc : Option String) (lt : Option (List String)) (cp ch : Bool)
      (r : Dict),
      r ∈ location_search db (some lu) pn act oc lt cp ch →
      ∃ l, l ∈ db.locations ∧ l.uuid ∈ lu ∧
        dlookup r "uuid" = some (JVal.str l.uuid)) ∧
    (∀ (lu : List String) (pn : Option (List String)) (act : Option Bool)
      (oc : Option String) (lt : Option (List String)) (cp ch : Bool)
      (u' : String), u' ∈ lu → findLoc db u' = none →
      ∀ r ∈ location_search db (some lu) pn act oc lt cp ch,
        ¬ dlookup r "uuid" = some (JVal.str u')) := by
  have huuid : ∀ (lu : List String) (pn : Option (List String))
      (act : Option Bool) (oc : Option String) (lt : Option (List String))
      (cp ch : Bool) (r : Dict),
      r ∈ location_search db (some lu) pn act oc lt cp ch →
      ∃ l, l ∈ db.locations ∧ l.uuid ∈ lu ∧
        dlookup r "uuid" = some (JVal.str l.uuid) := by
    intro lu pn act oc lt cp ch r hr
    rcases (mem_location_search db (some lu) pn act oc lt cp ch r).mp hr with
      ⟨l, hl, hflt, _, hrec⟩
    refine ⟨l, hl, ?_, ?_⟩
    · have h1 := (Bool.and_eq_true _ _).mp hflt |>.1
      have h2 := (Bool.and_eq_true _ _).mp h1 |>.1
      have h3 := (Bool.and_eq_true _ _).mp h2 |>.1
      simpa using h3
    · rw [hrec, dlookup_fixupRec_ne db _ "uuid" (by decide)]
      exact to_dict_uuid db l cp _
  refine ⟨?_, huuid, ?_⟩
  · intro u ch cp h
    have hempty : location_search db (some [u]) none none none none cp ch = [] := by
      simp only [location_search, fixup_parents]
      have hfilter : db.locations.filter
          (fun l => matchesFilters l (some [u]) none none none) = [] := by
        rw [List.filter_eq_nil_iff]
        intro l hl
        have hne := findLoc_none db u h l hl
        simp [matchesFilters, List.contains, hne]
      rw [hfilter]
      rfl
    unfold get_location_by_uuid
    rw [hempty]
  · intro lu pn act oc lt cp ch u' hu' hnone r hr habs
    rcases huuid lu pn act oc lt cp ch r hr with ⟨l, hl, _, hlu⟩
    rw [hlu] at habs
    have : l.uuid = u' := by
      have := Option.some.inj habs
      exact JVal.str.inj this
    exact findLoc_none db u' hnone l hl this

/-- Witness for C8 at the example store: an absent uuid on the fetch path
and the bay record on the search path. -/
theorem claim_C8_witness :
    findLoc exDb "nope" = none ∧
    get_location_by_uuid exDb "nope" false false =
      Except.error (Err.entityNotFound "Location nope not found") ∧
    c2rec ∈ location_search exDb (some ["B", "nope"]) none none none none
      true false ∧
    ∃ l, l ∈ exDb.locations ∧ l.uuid ∈ ["B", "nope"] ∧
      dlookup c2rec "uuid" = some (JVal.str l.uuid) := by
  have h1 : findLoc exDb "nope" = none := rfl
  have heq : location_search exDb (some ["B", "nope"]) none none none none
      true false = [c2rec] := rfl
  have hmem : c2rec ∈ location_search exDb (some ["B", "nope"]) none none none
      none true false := by
    rw [heq]; exact List.mem_cons_self _ _
  exact ⟨h1, (claim_C8_not_found exDb).1 "nope" false false h1, hmem,
    (claim_C8_not_found exDb).2.1 ["B", "nope"] none none none none true false
      c2rec hmem⟩

/-- Counterexample to claim C5 as stated: in the example store the bay is a
descendant of the hospital and has a (closed) SEND product row, yet a SEND
children search rooted at the hospital returns an empty child set — the ward
on the path has no SEND row, and the recursive descent re-joins the product
filter at every step, so a matching descendant below a non-matching node is
excluded. -/
theorem claim_C5_counterexample :
    c5rec ∈
      location_search exDb (some ["H"]) (some ["SEND"]) none none none true
        true ∧
    dlookup c5rec "uuid" = some (JVal.str "H") ∧
    dlookup c5rec "children" = some (JVal.arr []) ∧
    IsDescendant exDb "H" "B" ∧
    (∃ p, p ∈ exDb.products ∧ p.location_uuid = "B" ∧
      p.product_name = "SEND") := by
  have heq : location_search exDb (some ["H"]) (some ["SEND"]) none none none
      true true = [c5rec] := rfl
  refine ⟨by rw [heq]; exact List.mem_cons_self _ _, rfl, rfl, ?_, ?_⟩
  · exact IsDescM.step "H" exWard "B" (by decide) rfl rfl
      (IsDescM.child "W" exBay (by decide) rfl rfl)
  · exact ⟨exSendB, by decide, rfl, rfl⟩

/-- Claim C5 (amended): with a product-name filter, a location appears in
the search result exactly when it passes the other filters and owns at least
one `LocationProduct` row with a matching name — open or closed alike; a
descendant appears in a result row's `children` array exactly when every
location on the descent path from the root to it (itself included) owns such
a row (the recursive CTE re-joins the filter at every step, so a matching
descendant below a non-matching node is excluded); and the (compact) results
are completely invariant under reassigning every row's `closed_date`. -/
theorem claim_C5_product_filter (db : DB) (hwf : WF db)
    (pn : Option (List String)) (ns : List String)
    (hpn : productNames pn = some ns) :
    (∀ (lu : Option (List String)) (act : Option Bool) (oc : Option String)
      (lt : Option (List String)) (cp ch : Bool) (x : String),
      (∃ r, r ∈ location_search db lu pn act oc lt cp ch ∧
        dlookup r "uuid" = some (JVal.str x)) ↔
      (∃ l, l ∈ db.locations ∧ l.uuid = x ∧
        matchesFilters l lu act oc lt = true ∧
        ∃ p, p ∈ db.products ∧ p.location_uuid = x ∧ p.product_name ∈ ns)) ∧
    (∀ (lu : Option (List String)) (act : Option Bool) (oc : Option String)
      (lt : Option (List String)) (cp : Bool) (r : Dict),
      r ∈ location_search db lu pn act oc lt cp true →
      ∃ l cs, l ∈ db.locations ∧ dlookup r "uuid" = some (JVal.str l.uuid) ∧
        dlookup r "children" = some (JVal.arr cs) ∧
        ∀ x : String, JVal.str x ∈ cs ↔
          IsDescM db (fun c => prodOk db (some ns) c.uuid) l.uuid x) ∧
    (∀ (g : LocationProduct → Option Nat) (lu : Option (List String))
      (act : Option Bool) (oc : Option String) (lt : Option (List String))
      (ch : Bool),
      location_search (setClosed g db) lu pn act oc lt true ch =
        location_search db lu pn act oc lt true ch) := by
  refine ⟨?_, ?_, fun g lu act oc lt ch =>
    location_search_setClosed g db lu pn act oc lt ch⟩
  · intro lu act oc lt cp ch x
    constructor
    · rintro ⟨r, hr, hx⟩
      rcases (mem_location_search db lu pn act oc lt cp ch r).mp hr with
        ⟨l, hl, hflt, hpo, hrec⟩
      have hux : dlookup r "uuid" = some (JVal.str l.uuid) := by
        rw [hrec, dlookup_fixupRec_ne db _ "uuid" (by decide)]
        exact to_dict_uuid db l cp _
      rw [hux] at hx
      have hlx : l.uuid = x := JVal.str.inj (Option.some.inj hx)
      rw [hpn] at hpo
      rcases (prodOk_some_iff db ns l.uuid).mp hpo with ⟨p, hp, hplu, hpn2⟩
      exact ⟨l, hl, hlx, hflt, p, hp, by rw [← hlx]; exact hplu, hpn2⟩
    · rintro ⟨l, hl, hlx, hflt, p, hp, hplu, hpnm⟩
      have hpo : prodOk db (productNames pn) l.uuid = true := by
        rw [hpn]
        exact (prodOk_some_iff db ns l.uuid).mpr
          ⟨p, hp, by rw [hlx]; exact hplu, hpnm⟩
      refine ⟨fixupRec db (Location.to_dict db l cp
        (if ch then
          some (descend db (productNames pn) db.locations.length l.uuid)
         else none) false), ?_, ?_⟩
      · exact (mem_location_search db lu pn act oc lt cp ch _).mpr
          ⟨l, hl, hflt, hpo, rfl⟩
      · rw [dlookup_fixupRec_ne db _ "uuid" (by decide), to_dict_uuid, hlx]
  · intro lu act oc lt cp r hr
    obtain ⟨l, hl, _, _, huuid, _, hch, _⟩ :=
      search_record_core db hwf lu pn act oc lt cp true r hr
    rw [if_pos rfl, hpn] at hch
    refine ⟨l, (descend db (some ns) db.locations.length l.uuid).map JVal.str,
      hl, huuid, hch, ?_⟩
    intro x
    constructor
    · intro hx
      rcases List.mem_map.mp hx with ⟨y, hy, he⟩
      have hxy : y = x := by cases he; rfl
      subst hxy
      exact (mem_descend_iff db hwf (some ns) l.uuid y).mp hy
    · intro hx
      exact List.mem_map.mpr ⟨x,
        (mem_descend_iff db hwf (some ns) l.uuid x).mpr hx, rfl⟩

/-- Witness for the amended C5 at the example store: the SEND-filtered
search sees the hospital (open SEND row) and the bay (closed SEND row). -/
theorem claim_C5_witness :
    WF exDb ∧ productNames (some ["SEND"]) = some ["SEND"] ∧
    ((∃ r, r ∈ location_search exDb none (some ["SEND"]) none none none true
        false ∧ dlookup r "uuid" = some (JVal.str "B")) ↔
      (∃ l, l ∈ exDb.locations ∧ l.uuid = "B" ∧
        matchesFilters l none none none none = true ∧
        ∃ p, p ∈ exDb.products ∧ p.location_uuid = "B" ∧
          p.product_name ∈ ["SEND"])) ∧
    ((∃ r, r ∈ location_search exDb none (some ["SEND"]) none none none true
        false ∧ dlookup r "uuid" = some (JVal.str "W")) ↔
      (∃ l, l ∈ exDb.locations ∧ l.uuid = "W" ∧
        matchesFilters l none none none none = true ∧
        ∃ p, p ∈ exDb.products ∧ p.location_uuid = "W" ∧
          p.product_name ∈ ["SEND"])) := by
  have hwf : WF exDb := by decide
  have h := claim_C5_product_filter exDb hwf (some ["SEND"]) ["SEND"] rfl
  exact ⟨hwf, rfl, h.1 none none none none true false "B",
    h.1 none none none none true false "W"⟩

/-- Claim C3: creating a single location whose `ods_code` equals an existing
location's fails with `DuplicateResource`, and a bulk create containing any
ods_code collision (with existing rows or within the batch — the combined
code list is not duplicate-free) fails as a whole with one
`DuplicateResource` error and persists nothing: the returned store is the
original one. -/
theorem claim_C3_duplicate_ods (db : DB) (ctr : Nat) :
    (∀ (d : CreateDetails) (db1 : DB) (loc : Location) (c1 : Nat),
      locationNew db ctr d = Except.ok (db1, loc, c1) →
      (∃ l, l ∈ db.locations ∧ l.ods_code = d.ods_code ∧
        ¬ d.ods_code = none) →
      create_location db ctr d =
        (Except.error (Err.duplicateResource
          ("location with ods code " ++ odsStr d.ods_code ++
            " already exists")), db)) ∧
    (∀ (ds : List CreateDetails) (db2 : DB) (c2 : Nat),
      locationNewMany db ctr ds = Except.ok (db2, c2) →
      ¬ ((db.locations.filterMap (fun l => l.ods_code) ++
          ds.filterMap (fun d => d.ods_code)).Nodup) →
      create_many_locations db ctr ds =
        (Except.error
          (Err.duplicateResource "duplicate ods_code creating locations"),
         db)) := by
  constructor
  · intro d db1 loc c1 hnew hdup
    obtain ⟨hods, hlocs⟩ := locationNew_ok db ctr d db1 loc c1 hnew
    simp only [create_location, hnew]
    have hconf : hasOdsConflict db1.locations = true := by
      rw [hasOdsConflict_iff, hlocs]
      intro hnd
      rcases hdup with ⟨l, hl, hlo, hne⟩
      cases hoc : d.ods_code with
      | none => exact hne hoc
      | some oc =>
        rw [List.filterMap_append] at hnd
        have h1 : oc ∈ db.locations.filterMap (fun l => l.ods_code) :=
          List.mem_filterMap.mpr ⟨l, hl, by rw [hlo, hoc]⟩
        have h2 : oc ∈ [loc].filterMap (fun l => l.ods_code) := by
          simp [List.filterMap_cons, hods, hoc]
        exact (List.nodup_append.mp hnd).2.2 h1 h2
    rw [if_pos hconf, hods]
  · intro ds db2 c2 hnew hcol
    simp only [create_many_locations, hnew]
    have hconf : hasOdsConflict db2.locations = true := by
      rw [hasOdsConflict_iff, locationNewMany_ods ds db ctr db2 c2 hnew]
      exact hcol
    rw [if_pos hconf]

/-- Witness for C3 at the example store: creating a location with the ward's
ods code, singly and in a batch. -/
theorem claim_C3_witness :
    locationNew exDb 0 exDup = Except.ok (exDupDb1, exDupLoc, 0) ∧
    (∃ l, l ∈ exDb.locations ∧ l.ods_code = exDup.ods_code ∧
      ¬ exDup.ods_code = none) ∧
    create_location exDb 0 exDup =
      (Except.error (Err.duplicateResource
        "location with ods code ODS-W already exists"), exDb) ∧
    locationNewMany exDb 0 [exDup] = Except.ok (exDupDb1, 0) ∧
    ¬ ((exDb.locations.filterMap (fun l => l.ods_code) ++
        [exDup].filterMap (fun d => d.ods_code)).Nodup) ∧
    create_many_locations exDb 0 [exDup] =
      (Except.error
        (Err.duplicateResource "duplicate ods_code creating locations"),
       exDb) := by
  have hnew : locationNew exDb 0 exDup = Except.ok (exDupDb1, exDupLoc, 0) :=
    rfl
  have hdup : ∃ l, l ∈ exDb.locations ∧ l.ods_code = exDup.ods_code ∧
      ¬ exDup.ods_code = none := ⟨exWard, by decide, rfl, by decide⟩
  have hmany : locationNewMany exDb 0 [exDup] = Except.ok (exDupDb1, 0) := rfl
  have hcol : ¬ ((exDb.locations.filterMap (fun l => l.ods_code) ++
      [exDup].filterMap (fun d => d.ods_code)).Nodup) := by decide
  exact ⟨hnew, hdup,
    (claim_C3_duplicate_ods exDb 0).1 exDup exDupDb1 exDupLoc 0 hnew hdup,
    hmany, hcol,
    (claim_C3_duplicate_ods exDb 0).2 [exDup] exDupDb1 0 hmany hcol⟩

/-- Claim C6: updating a location with `parent_location` equal to its own
uuid fails with the InvalidArgument-style `ValueError` and leaves the store
— in particular the location's `parent_id` — exactly as before the call. -/
theorem claim_C6_self_parent (db : DB) (ctr : Nat) (u : String) (l : Location)
    (hfind : findLoc db u = some l) (d : UpdateDetails)
    (hp : d.parent_location = some (some u)) :
    update_location db ctr u d =
      (Except.error (Err.valueError "Location cannot have itself as a parent"),
       db) := by
  have hu := (findLoc_some db u l hfind).2
  subst hu
  simp only [update_location, hfind, locationUpdate, hp]
  simp

/-- Witness for C6 at the example store: re-parenting the ward onto itself. -/
theorem claim_C6_witness :
    findLoc exDb "W" = some exWard ∧
    update_location exDb 0 "W" { parent_location := some (some "W") } =
      (Except.error (Err.valueError "Location cannot have itself as a parent"),
       exDb) :=
  ⟨rfl, claim_C6_self_parent exDb 0 "W" exWard rfl
    { parent_location := some (some "W") } rfl⟩

/-- Claim C10: updating a uuid absent from the store dereferences the `None`
returned by the unguarded `Location.query.get` and fails with an untyped
`AttributeError` — not the NotFound domain error — before any validation or
write: the store is returned unchanged. -/
theorem claim_C10_update_missing (db : DB) (ctr : Nat) (u : String)
    (d : UpdateDetails) (h : findLoc db u = none) :
    update_location db ctr u d =
      (Except.error
        (Err.attributeError "NoneType object has no attribute update"), db) ∧
    Err.isEntityNotFound
      (Err.attributeError "NoneType object has no attribute update") = false := by
  refine ⟨?_, rfl⟩
  simp only [update_location, h]

/-- Witness for C10 at the example store: an update aimed at an absent uuid. -/
theorem claim_C10_witness :
    findLoc exDb "missing" = none ∧
    update_location exDb 0 "missing" { display_name := some "X" } =
      (Except.error
        (Err.attributeError "NoneType object has no attribute update"),
       exDb) :=
  ⟨rfl, (claim_C10_update_missing exDb 0 "missing"
    { display_name := some "X" } rfl).1⟩

/-- Counterexample to the error kind of claim C9 as stated: an absent
`parent_ods_code` raises the same `ValueError` family used for invalid
arguments (surfaced as a 400-equivalent by the boundary), not the NotFound
domain error (`EntityNotFoundException`). -/
theorem claim_C9_counterexample :
    (create_location exDb 0 exMissingOds).1 =
      Except.error
        (Err.valueError "Parent location with ods_code NOPE not found") ∧
    Err.isEntityNotFound
      (Err.valueError "Parent location with ods_code NOPE not found") =
      false :=
  ⟨rfl, rfl⟩

/-- Claim C9 (amended): `createLocation` with a `parent_ods_code` resolves
it to the matching location's uuid as the new location's parent; it fails
with the InvalidArgument-style `ValueError` (not the NotFound domain error)
when no location has that ods_code; it fails when both `parent` and
`parent_ods_code` are given and resolve to different uuids; and when they
agree, creation succeeds with that parent. -/
theorem claim_C9_parent_ods (db : DB) (ctr : Nat) (d : CreateDetails)
    (c : String) (hc : d.parent_ods_code = some c) (hcne : ¬ c = "") :
    (findLocByOds db c = none →
      create_location db ctr d =
        (Except.error (Err.valueError
          ("Parent location with ods_code " ++ c ++ " not found")), db)) ∧
    (∀ pl p, findLocByOds db c = some pl → d.parent = some p → ¬ p = "" →
      ¬ pl.uuid = p →
      create_location db ctr d =
        (Except.error (Err.valueError "Location may only have one parent"),
         db)) ∧
    (∀ pl, findLocByOds db c = some pl →
      (d.parent = none ∨ d.parent = some pl.uuid) →
      (db.locations.filterMap (fun l => l.ods_code)).Nodup →
      (∀ l, l ∈ db.locations → ¬ l.ods_code = d.ods_code ∨ d.ods_code = none) →
      ∃ db1 loc c1, locationNew db ctr d = Except.ok (db1, loc, c1) ∧
        loc.parent_id = some pl.uuid ∧
        create_location db ctr d =
          (Except.ok (Location.to_dict db1 loc false none true), db1)) := by
  refine ⟨?_, ?_, ?_⟩
  · intro hf
    exact create_location_err db ctr d _
      (locationNew_err db ctr d _ (resolveParent_not_found db d c hc hcne hf))
  · intro pl p hf hp hpne hne
    exact create_location_err db ctr d _
      (locationNew_err db ctr d _
        (resolveParent_mismatch db d c pl p hc hcne hf hp hpne hne))
  · intro pl hf hag hnodup hfresh
    rcases locationNew_of_resolve db ctr d (some pl.uuid)
        (resolveParent_agree db d c pl hc hcne hf hag) with
      ⟨db1, loc, c1, hnew, hpar, hods, hlocs⟩
    refine ⟨db1, loc, c1, hnew, hpar, ?_⟩
    simp only [create_location, hnew]
    have hconf : hasOdsConflict db1.locations = false := by
      apply hasOdsConflict_eq_false
      rw [hlocs, List.filterMap_append]
      rw [List.nodup_append]
      refine ⟨hnodup, ?_, ?_⟩
      · cases hoc : loc.ods_code <;> simp [List.filterMap_cons, hoc]
      · intro oc hin hin2
        simp only [List.filterMap_cons, List.filterMap_nil] at hin2
        rw [hods] at hin2
        cases hoc : d.ods_code with
        | none => rw [hoc] at hin2; simp at hin2
        | some v =>
          rw [hoc] at hin2
          simp at hin2
          subst hin2
          rcases List.mem_filterMap.mp hin with ⟨l, hl, hlo⟩
          rcases hfresh l hl with hne2 | hnone
          · exact hne2 (by rw [hlo, hoc])
          · rw [hnone] at hoc
            exact Option.noConfusion hoc
    rw [hconf]
    simp

/-- Witness for the amended C9 at the example store: an absent parent ods
code, a disagreeing parent pair, and an agreeing resolution. -/
theorem claim_C9_witness :
    exMissingOds.parent_ods_code = some "NOPE" ∧
    findLocByOds exDb "NOPE" = none ∧
    create_location exDb 0 exMissingOds =
      (Except.error
        (Err.valueError "Parent location with ods_code NOPE not found"),
       exDb) ∧
    findLocByOds exDb "ODS-H" = some exHospital ∧
    create_location exDb 0 exMismatch =
      (Except.error (Err.valueError "Location may only have one parent"),
       exDb) ∧
    ∃ db1 loc c1, locationNew exDb 0 exAgree = Except.ok (db1, loc, c1) ∧
      loc.parent_id = some exHospital.uuid ∧
      create_location exDb 0 exAgree =
        (Except.ok (Location.to_dict db1 loc false none true), db1) := by
  have h1 := (claim_C9_parent_ods exDb 0 exMissingOds "NOPE" rfl
    (by decide)).1 rfl
  have h2 := (claim_C9_parent_ods exDb 0 exMismatch "ODS-H" rfl
    (by decide)).2.1 exHospital "W" rfl rfl (by decide) (by decide)
  have h3 := (claim_C9_parent_ods exDb 0 exAgree "ODS-H" rfl
    (by decide)).2.2 exHospital rfl (Or.inl rfl) (by decide) (by decide)
  exact ⟨rfl, rfl, h1, rfl, h2, h3⟩

/-- Claim C7: on `Location.update`, adding a new open product entry (no
uuid, null `closed_date`) whose `product_name` already has an open entry on
that location fails with the InvalidArgument-style `ValueError` and leaves
the store unchanged; once no open entry with that name remains (the existing
entry's `closed_date` is set), the same addition succeeds and appends the
row; and renaming an existing product so its new name collides with another
open entry on the same location is rejected under the same rule. -/
theorem claim_C7_product_rules (db : DB) (ctr : Nat) (u : String)
    (l : Location) (hfind : findLoc db u = some l)
    (hnd : (db.locations.map (fun x => x.uuid)).Nodup)
    (hods : (db.locations.filterMap (fun x => x.ods_code)).Nodup)
    (pd : ProductDetails) :
    (pd.uuid = none → pd.closed_date = none →
      (∃ q, q ∈ db.products ∧ q.location_uuid = l.uuid ∧
        q.product_name = pd.product_name ∧ q.closed_date = none) →
      update_location db ctr u { dh_products := some [pd] } =
        (Except.error (Err.valueError "Cannot add duplicate open product"),
         db)) ∧
    (pd.uuid = none →
      (∀ q, q ∈ db.products → q.location_uuid = l.uuid →
        q.product_name = pd.product_name → ¬ q.closed_date = none) →
      ∃ r, update_location db ctr u { dh_products := some [pd] } =
        (Except.ok r,
         { db with
           products := db.products ++ [(newProductRow l.uuid ctr pd).1] })) ∧
    (∀ pu row, pd.uuid = some pu → findProd db pu = some row →
      ¬ pd.product_name = row.product_name →
      (∃ q, q ∈ db.products ∧ ¬ q.uuid = row.uuid ∧
        q.location_uuid = row.location_uuid ∧
        q.product_name = pd.product_name ∧ q.closed_date = none) →
      update_location db ctr u { dh_products := some [pd] } =
        (Except.error
          (Err.valueError
            ("Location is already active on " ++ pd.product_name)), db)) := by
  refine ⟨?_, ?_, ?_⟩
  · intro hnu hcd hopen
    have hcond : (pd.closed_date.isNone &&
        (locProducts db l.uuid).any (fun p =>
          p.product_name = pd.product_name && p.closed_date.isNone)) = true := by
      rw [hcd]
      rcases hopen with ⟨q, hq, hq1, hq2, hq3⟩
      simp only [Option.isNone_none, Bool.true_and]
      refine List.any_eq_true.mpr ⟨q, ?_, ?_⟩
      · exact List.mem_filter.mpr ⟨hq, by simp [hq1]⟩
      · simp [hq2, hq3]
    have happ : applyProductUpserts l db ctr [pd] =
        Except.error (Err.valueError "Cannot add duplicate open product") := by
      simp only [applyProductUpserts, hnu, hcond]
      simp
    exact update_location_err db ctr u l _ _ hfind
      (locationUpdate_products_err db ctr l pd _ happ)
  · intro hnu hnoopen
    have hcond : (pd.closed_date.isNone &&
        (locProducts db l.uuid).any (fun p =>
          p.product_name = pd.product_name && p.closed_date.isNone)) = false := by
      cases hcd : pd.closed_date with
      | some v => simp [hcd]
      | none =>
        simp only [hcd, Option.isNone_none, Bool.true_and]
        rw [← Bool.not_eq_true, List.any_eq_true]
        rintro ⟨q, hq, hqp⟩
        have hqf := List.mem_filter.mp hq
        have hql : q.location_uuid = l.uuid := by simpa using hqf.2
        have hb := (Bool.and_eq_true _ _).mp hqp
        have hqn : q.product_name = pd.product_name := by simpa using hb.1
        have hqc : q.closed_date = none := Option.isNone_iff_eq_none.mp hb.2
        exact hnoopen q hqf.1 hql hqn hqc
    have happ : applyProductUpserts l db ctr [pd] =
        Except.ok
          ({ db with
             products := db.products ++ [(newProductRow l.uuid ctr pd).1] },
           (newProductRow l.uuid ctr pd).2) := by
      simp only [applyProductUpserts, hnu, hcond]
      simp [applyProductUpserts]
    have hupd := locationUpdate_products_only db ctr l pd _ _ happ
    have hl2 : applySimple l ({ dh_products := some [pd] } : UpdateDetails) =
        l := rfl
    rw [hl2] at hupd
    have hmap : ({ db with
        products := db.products ++ [(newProductRow l.uuid ctr pd).1] } :
          DB).locations.map (fun x => if x.uuid = l.uuid then l else x) =
        db.locations :=
      map_replace_self db.locations hnd l (findLoc_some db u l hfind).1
    rw [hmap] at hupd
    refine ⟨_, update_location_ok db ctr u l l _ _ _ hfind hupd
      (hasOdsConflict_eq_false _ hods)⟩
  · intro pu row hpu hrow hdiff hother
    have hcond : (!(pd.product_name = row.product_name) &&
        db.products.any (fun q =>
          !(q.uuid = row.uuid) && q.location_uuid = row.location_uuid &&
          q.product_name = pd.product_name && q.closed_date.isNone)) = true := by
      rcases hother with ⟨q, hq, hq1, hq2, hq3, hq4⟩
      refine (Bool.and_eq_true _ _).mpr ⟨by simp [hdiff], ?_⟩
      refine List.any_eq_true.mpr ⟨q, hq, ?_⟩
      simp [hq1, hq2, hq3, hq4]
    have hprod : productUpdate db row pd =
        Except.error
          (Err.valueError
            ("Location is already active on " ++ pd.product_name)) := by
      simp only [productUpdate, hcond]
      simp
    have happ : applyProductUpserts l db ctr [pd] =
        Except.error
          (Err.valueError
            ("Location is already active on " ++ pd.product_name)) := by
      simp only [applyProductUpserts, hpu, hrow, hprod]
    exact update_location_err db ctr u l _ _ hfind
      (locationUpdate_products_err db ctr l pd _ happ)

/-- Witness for C7 at the extended example store: a second open SEND entry
on the hospital is rejected; adding an open SEND entry to the bay succeeds
because the bay's existing SEND entry has its `closed_date` set; renaming
the hospital's GDM row to SEND collides with its open SEND row and is
rejected. -/
theorem claim_C7_witness :
    findLoc exDb2 "H" = some exHospital ∧
    update_location exDb2 0 "H" { dh_products := some [exOpenSend] } =
      (Except.error (Err.valueError "Cannot add duplicate open product"),
       exDb2) ∧
    findLoc exDb2 "B" = some exBay ∧
    exSendB.location_uuid = exBay.uuid ∧ exSendB.closed_date = some 9 ∧
    (∃ r, update_location exDb2 0 "B" { dh_products := some [exOpenSend] } =
      (Except.ok r,
       { exDb2 with
         products :=
           exDb2.products ++ [(newProductRow exBay.uuid 0 exOpenSend).1] })) ∧
    update_location exDb2 0 "H" { dh_products := some [exRename] } =
      (Except.error (Err.valueError "Location is already active on SEND"),
       exDb2) := by
  have hwfnd : (exDb2.locations.map (fun x => x.uuid)).Nodup := by decide
  have hwfods : (exDb2.locations.filterMap (fun x => x.ods_code)).Nodup := by
    decide
  have hA := (claim_C7_product_rules exDb2 0 "H" exHospital rfl hwfnd hwfods
    exOpenSend).1 rfl rfl ⟨exSendH, by decide, rfl, rfl, rfl⟩
  have hB := (claim_C7_product_rules exDb2 0 "B" exBay rfl hwfnd hwfods
    exOpenSend).2.1 rfl (by decide)
  have hC := (claim_C7_product_rules exDb2 0 "H" exHospital rfl hwfnd hwfods
    exRename).2.2 "PG" exGdmH rfl rfl (by decide)
    ⟨exSendH, by decide, by decide, rfl, rfl, rfl⟩
  exact ⟨rfl, hA, rfl, rfl, rfl, hB, hC⟩

end DhosLocations
